import Mathlib

/-!
Odroid Smart Power 2 driver (pmctrack): sampling and aggregation engine.

Shallow embedding of `src/modules/pmcs/smart_power_2_driver.c` and of
`include/pmc/smart_power_2.h`.

* C `int` values are `Int`s kept in the 32-bit range by `toInt32`
  (the kernel is built with wrapping signed arithmetic).
* `unsigned long` values are `Nat`s reduced modulo `2 ^ BITS_PER_LONG`.
* A C string is the `List Char` of the bytes stored in the buffer; the byte
  after the last element is the terminating NUL, and what lies behind that
  NUL is not part of the model: code that reads there returns `none`.
* The completion handler is given on a C string (`spower2_int_in_callback`)
  and on the device structure (`spower2_int_in_callback_urb`), where the
  string that starts at `int_in_buffer` runs on into `int_out_buffer`; the
  two agree wherever the first has a result.
-/

set_option autoImplicit false

namespace SmartPower2

/-! ## Machine arithmetic -/

/-- Conversion of an integer value to the C type `int` (32 bits, two's complement). -/
def toInt32 (x : Int) : Int := (x + 2147483648) % 4294967296 - 2147483648

/-- Largest value of the C type `int`. -/
def INT_MAX : Int := 2147483647

/-- Smallest value of the C type `int`. -/
def INT_MIN : Int := -2147483648

/-- Build-time constants of the kernel the driver is compiled for: the tick
frequency `HZ` (ticks per second) and the width of `unsigned long`. -/
structure Platform where
  HZ : Nat
  BITS_PER_LONG : Nat
  HZ_pos : 0 < HZ
  long_width : BITS_PER_LONG = 32 ∨ BITS_PER_LONG = 64

/-- Number of values of the type `unsigned long`. -/
def Platform.ULONG_MOD (P : Platform) : Nat := 2 ^ P.BITS_PER_LONG

/-- Conversion of an integer value to `unsigned long`. -/
def toULong (P : Platform) (x : Int) : Nat := (x % (P.ULONG_MOD : Int)).toNat

/-- Conversion of an integer value to `uint64_t`. -/
def toUInt64 (x : Int) : Nat := (x % 18446744073709551616).toNat

/-- Conversion of an integer value to `unsigned int` (32 bits). -/
def toUInt32 (x : Int) : Nat := (x % 4294967296).toNat

/-! ## Data model -/

/-- The record `struct spower2_sample` of smart_power_2.h. -/
structure spower2_sample where
  m_volts : Int
  m_ampere : Int
  m_watt : Int
  m_watthour : Int
  m_ujoules : Int
  timestamp : Nat
deriving DecidableEq, Repr

/-- A sample with every member zero (the result of `memset`). -/
def zero_sample : spower2_sample := ⟨0, 0, 0, 0, 0, 0⟩

/-- The constant `CBUFFER_CAPACITY`: number of samples the history holds. -/
def CBUFFER_CAPACITY : Nat := 10

/-- The constant `REQUEST_DATA` (0x37): tag of a data telegram and poll command. -/
def REQUEST_DATA : Nat := 0x37

/-- The constant `SPOWER2_DEFAULT_TIMER_PERIOD` (milliseconds). -/
def SPOWER2_DEFAULT_TIMER_PERIOD : Nat := 100

/-- The errno value `ENODEV`. -/
def ENODEV : Int := 19

/-- The errno value `ENOENT`. -/
def ENOENT : Int := 2

/-- The errno value `ECONNRESET`. -/
def ECONNRESET : Int := 104

/-- The errno value `ESHUTDOWN`. -/
def ESHUTDOWN : Int := 108

/-- Modelled from the spec: the circular buffer `cbuffer_t` of
`pmc/data_str/cbuffer.h`, whose implementation is not among the sources.
Spec 3 and 4.3: a fixed-capacity ordered sequence of samples, insertion order
= arrival order.  `items` lists the stored samples, oldest first; `max_size`
is the capacity counted in samples. -/
structure cbuffer_t where
  items : List spower2_sample
  max_size : Nat
deriving DecidableEq, Repr

/-- Modelled from the spec: `create_cbuffer_t`, an empty history of the given
capacity. -/
def create_cbuffer_t (max_size : Nat) : cbuffer_t := ⟨[], max_size⟩

/-- Modelled from the spec: `insert_items_cbuffer_t` for one sample.  Spec 4.3:
"appends, evicting the oldest entry if full". -/
def insert_items_cbuffer_t (cb : cbuffer_t) (item : spower2_sample) : cbuffer_t :=
  if cb.items.length < cb.max_size then ⟨cb.items ++ [item], cb.max_size⟩
  else ⟨cb.items.drop 1 ++ [item], cb.max_size⟩

/-- Modelled from the spec: `clear_cbuffer_t`, "empties the buffer". -/
def clear_cbuffer_t (cb : cbuffer_t) : cbuffer_t := ⟨[], cb.max_size⟩

/-- The global `spower2_gbl` (`struct spower2_ctl`).  `dev` is the attached
device handle, `timer_expires` the expiry time of the kernel timer. -/
structure spower2_ctl where
  dev : Option Nat
  cbuffer : cbuffer_t
  timer_expires : Nat
  timer_period : Nat
  started : Nat
  time_last_sample : Nat
  cummulative_energy : Nat
deriving DecidableEq, Repr

/-! ## Character classes and `sscanf` of the kernel library -/

/-- The character read through a `char*` that points at the start of `str`;
at the end of the stored bytes this is the terminating NUL. -/
def peek (str : List Char) : Char := str.headD (Char.ofNat 0)

/-- Kernel `isdigit`. -/
def isdigit (c : Char) : Bool := decide (48 ≤ c.toNat) && decide (c.toNat ≤ 57)

/-- Kernel `isspace` (HT, LF, VT, FF, CR, SP and NBSP of lib/ctype.c). -/
def isspace (c : Char) : Bool :=
  (decide (9 ≤ c.toNat) && decide (c.toNat ≤ 13)) || decide (c.toNat = 32) || decide (c.toNat = 160)

/-- Kernel `skip_spaces`. -/
def skip_spaces : List Char → List Char
  | [] => []
  | c :: cs => if isspace c then skip_spaces cs else c :: cs

/-- Kernel `simple_strtoull` in base 10: the digits are accumulated in an
`unsigned long long`; returns the value and the unread rest. -/
def simple_strtoull : List Char → Nat → Nat × List Char
  | [], acc => (acc, [])
  | c :: cs, acc =>
    if isdigit c then simple_strtoull cs ((acc * 10 + (c.toNat - 48)) % 18446744073709551616)
    else (acc, c :: cs)

/-- Kernel `simple_strtol` in base 10 (an optional minus sign, then digits). -/
def simple_strtol (str : List Char) : Int × List Char :=
  if peek str = '-' then
    (-((simple_strtoull (str.drop 1) 0).1 : Int), (simple_strtoull (str.drop 1) 0).2)
  else (((simple_strtoull str 0).1 : Int), (simple_strtoull str 0).2)

/-- One `%d` conversion of the kernel `vsscanf`: stops at the end of the
input, skips white space, requires a digit (after an optional minus sign) and
stores the number converted to `int`.  `none` when the conversion fails. -/
def scan_d (str : List Char) : Option (Int × List Char) :=
  if peek str = Char.ofNat 0 then none
  else
    let s := skip_spaces str
    let digit := if peek s = '-' then peek (s.drop 1) else peek s
    if digit = Char.ofNat 0 || !isdigit digit then none
    else some (toInt32 (simple_strtol s).1, (simple_strtol s).2)

/-- The call `sscanf(str, "%d.%d", &unit, &dec)`: number of conversions done
and the resulting contents of `unit` and `dec`. -/
def sscanf_d_dot_d (str : List Char) (unit dec : Int) : Nat × Int × Int :=
  match scan_d str with
  | none => (0, unit, dec)
  | some (u, s1) =>
    if peek s1 = '.' then
      match scan_d (s1.drop 1) with
      | none => (1, u, dec)
      | some (d, _) => (2, u, d)
    else (1, u, dec)

/-- The function `strlen`: number of bytes before the first NUL. -/
def strlen : List Char → Nat
  | [] => 0
  | c :: cs => if c = Char.ofNat 0 then 0 else strlen cs + 1

/-! ## Telegram parser -/

/-- First loop of `spower2_parse_float`: skip what is neither a digit nor a
minus sign, counting in `len`.  The loop does not stop at the terminating NUL;
walking over it leaves the string (`none`). -/
def skip_to_number : List Char → Nat → Option (List Char × Nat)
  | [], _ => none
  | c :: cs, len =>
    if !isdigit c && c != '-' then skip_to_number cs (len + 1) else some (c :: cs, len)

/-- Last loop of `spower2_parse_float`: move over digits and decimal points. -/
def skip_number : List Char → Nat → Nat
  | [], len => len
  | c :: cs, len => if isdigit c || c == '.' then skip_number cs (len + 1) else len

/-- The function `spower2_parse_float`: the value stored in `*val` and the
returned cursor advance. -/
def spower2_parse_float (str : List Char) : Option (Int × Nat) :=
  match skip_to_number str 0 with
  | none => none
  | some (s, len) =>
    let r := sscanf_d_dot_d s 0 0
    let val : Int := if r.1 ≠ 2 then -1 else toInt32 (toInt32 (r.2.1 * 1000) + r.2.2)
    if peek s = '-' then some (val, len + 5) else some (val, skip_number s len)

/-- Pointer addition `str += n`: the new cursor, or `none` when it leaves the
string (beyond the terminating NUL). -/
def advance (str : List Char) (n : Nat) : Option (List Char) :=
  if n ≤ str.length then some (str.drop n) else none

/-- The function `parse_spower2_sample`: return value and the contents of
`*sample` afterwards (`m_ujoules` and `timestamp` are not written). -/
def parse_spower2_sample (str : List Char) (sample : spower2_sample) :
    Option (Int × spower2_sample) :=
  if strlen str < 33 then
    some (1, ⟨-1, -1, -1, -1, sample.m_ujoules, sample.timestamp⟩)
  else
    let s0 := str.drop 2
    match spower2_parse_float s0 with
    | none => none
    | some (volts, n1) =>
      match (advance s0 n1).bind (fun s1 => (spower2_parse_float s1).map (fun r => (s1, r))) with
      | none => none
      | some (s1, ampere, n2) =>
        match (advance s1 n2).bind (fun s2 => (spower2_parse_float s2).map (fun r => (s2, r))) with
        | none => none
        | some (s2, watt, n3) =>
          match (advance s2 n3).bind (fun s3 => spower2_parse_float s3) with
          | none => none
          | some (watthour, _) =>
            some (0, ⟨volts, ampere, watt, watthour, sample.m_ujoules, sample.timestamp⟩)

/-! ## Aggregation query -/

/-- The loop of `get_summary_samples` over the iterator of the history: `acc`
is `*sample`, `nr` is `nr_samples`. -/
def summary_loop (timestamp : Nat) :
    List spower2_sample → spower2_sample → Int → spower2_sample × Int
  | [], acc, nr => (acc, nr)
  | cur :: rest, acc, nr =>
    if cur.timestamp ≥ timestamp then
      summary_loop timestamp rest
        ⟨toInt32 (acc.m_volts + cur.m_volts), toInt32 (acc.m_ampere + cur.m_ampere),
         toInt32 (acc.m_watt + cur.m_watt), toInt32 (acc.m_watthour + cur.m_watthour),
         toInt32 (acc.m_ujoules + cur.m_ujoules), acc.timestamp⟩
        (toInt32 (nr + 1))
    else summary_loop timestamp rest acc nr

/-- The function `get_summary_samples`: returned count and `*sample`. -/
def get_summary_samples (cb : cbuffer_t) (timestamp : Nat) : Int × spower2_sample :=
  let r := summary_loop timestamp cb.items ⟨0, 0, 0, 0, 0, 0⟩ 0
  if r.2 > 0 then
    (r.2, ⟨Int.tdiv r.1.m_volts r.2, Int.tdiv r.1.m_ampere r.2, Int.tdiv r.1.m_watt r.2,
           Int.tdiv r.1.m_watthour r.2, r.1.m_ujoules, r.1.timestamp⟩)
  else (r.2, r.1)

/-- The function `spower2_get_sample` (the summary taken under the read lock). -/
def spower2_get_sample (g : spower2_ctl) (src : Nat) : Int × spower2_sample :=
  get_summary_samples g.cbuffer src

/-! ## Session operations -/

/-- The function `spower2_register_driver`: the initial global state.  The
default timer period `(HZ*SPOWER2_DEFAULT_TIMER_PERIOD)/1000` is an `int`
expression stored in an `unsigned int`. -/
def spower2_register_driver (P : Platform) (jiffies : Nat) : spower2_ctl :=
  { dev := none
    cbuffer := create_cbuffer_t CBUFFER_CAPACITY
    timer_expires := jiffies
    timer_period :=
      toUInt32 (Int.tdiv (toInt32 ((P.HZ : Int) * (SPOWER2_DEFAULT_TIMER_PERIOD : Int))) 1000)
    started := 0
    time_last_sample := 0
    cummulative_energy := 0 }

/-- Effect of a successful `spower2_probe` on the global state: the new device
is recorded only if none was attached. -/
def spower2_probe (g : spower2_ctl) (dev : Nat) : spower2_ctl :=
  if g.dev = none then { g with dev := some dev } else g

/-- The function `spower2_start_measurements`; `submit` is the value returned
by `usb_submit_urb` for the read request. -/
def spower2_start_measurements (P : Platform) (g : spower2_ctl) (jiffies : Nat) (submit : Int) :
    Int × spower2_ctl :=
  if g.started ≠ 0 ∨ g.dev = none then (-ENODEV, g)
  else if submit ≠ 0 then (submit, g)
  else
    (0, { g with
            timer_expires := (jiffies + 1) % P.ULONG_MOD
            time_last_sample := ((jiffies + 1) % P.ULONG_MOD + P.ULONG_MOD - 1) % P.ULONG_MOD
            cummulative_energy := 0
            started := 1 })

/-- The function `spower2_reset_energy_count`. -/
def spower2_reset_energy_count (g : spower2_ctl) : spower2_ctl :=
  { g with cummulative_energy := 0 }

/-- The function `spower2_get_energy_count`. -/
def spower2_get_energy_count (g : spower2_ctl) : Nat := g.cummulative_energy

/-- The energy attributed to a sample, as stored in `m_ujoules`:
`m_watt*((now-time_last_sample)*1000)/HZ`, computed in `unsigned long` and
converted to `int`. -/
def sample_ujoules (P : Platform) (m_watt : Int) (now last : Nat) : Int :=
  toInt32 (((toULong P m_watt *
    ((((now + P.ULONG_MOD - last % P.ULONG_MOD) % P.ULONG_MOD) * 1000) % P.ULONG_MOD))
      % P.ULONG_MOD / P.HZ : Nat) : Int)

/-- The completion handler `spower2_int_in_callback` for a read that finished
with `status`, delivered `actual_length` bytes and left `buffer` in
`int_in_buffer`, at tick `now`.  Returns the new global state and the number
of times the read was resubmitted.  The local `sample` starts here as
`zero_sample`; all six members are written before it is stored. -/
def spower2_int_in_callback (P : Platform) (g : spower2_ctl) (status : Int)
    (actual_length : Nat) (buffer : List Char) (now : Nat) : Option (spower2_ctl × Nat) :=
  if status ≠ 0 then
    if status = -ENOENT ∨ status = -ECONNRESET ∨ status = -ESHUTDOWN then some (g, 0)
    else some (g, 1)
  else if actual_length > 0 ∧ (peek buffer).toNat = REQUEST_DATA then
    match parse_spower2_sample buffer zero_sample with
    | none => none
    | some r =>
      let ujoules := sample_ujoules P r.2.m_watt now g.time_last_sample
      let sample : spower2_sample :=
        ⟨r.2.m_volts, r.2.m_ampere, r.2.m_watt, r.2.m_watthour, ujoules, now⟩
      some ({ g with
              cummulative_energy := (g.cummulative_energy + toUInt64 ujoules) % 18446744073709551616
              time_last_sample := now
              cbuffer := insert_items_cbuffer_t g.cbuffer sample }, 1)
  else some (g, 1)

/-- The errno value `EINVAL`. -/
def EINVAL : Int := 22

/-- Number of values of the type `unsigned int`. -/
def UINT_MOD : Nat := 4294967296

/-- Effect of `spower2_disconnect` on the global state: the handle is cleared
if it is the one of the device that goes away. -/
def spower2_disconnect (g : spower2_ctl) (dev : Nat) : spower2_ctl :=
  if g.dev = some dev then { g with dev := none } else g

/-- First locked section of `spower2_stop_measurements`: `none` when the
function leaves at once (`goto unlock`), otherwise the state with the
transition value 2 in `started`. -/
def stop_enter (g : spower2_ctl) : Option spower2_ctl :=
  if g.started ≠ 1 ∨ g.dev = none then none else some { g with started := 2 }

/-- Second locked section of `spower2_stop_measurements`, entered after the
read was killed and the timer deleted: the history is cleared and `started`
goes back to 0. -/
def stop_leave (g : spower2_ctl) : spower2_ctl :=
  { g with
    cbuffer := clear_cbuffer_t g.cbuffer
    started := 0 }

/-- The function `spower2_stop_measurements`. -/
def spower2_stop_measurements (g : spower2_ctl) : spower2_ctl :=
  match stop_enter g with
  | none => g
  | some g1 => stop_leave g1

/-- The function `spower2_set_sampling_period`; the product `HZ*ms` is taken in
`unsigned int`. -/
def spower2_set_sampling_period (P : Platform) (g : spower2_ctl) (ms : Nat) :
    Int × spower2_ctl :=
  if ms < 50 ∨ ms > 4000 then (-EINVAL, g)
  else (0, { g with timer_period := (P.HZ * ms) % UINT_MOD / 1000 })

/-- The function `spower2_get_sampling_period`; the product
`1000*timer_period` is taken in `unsigned int`. -/
def spower2_get_sampling_period (P : Platform) (g : spower2_ctl) : Nat :=
  (1000 * g.timer_period) % UINT_MOD / P.HZ

/-- The timer function `spower2_fire_timer` run at tick `jiffies`; `submit` is
the value `usb_submit_urb` returns for the poll.  Returns the new global state
(`mod_timer` sets the expiry time and makes the timer pending), the commands
handed to `send_packet_spower2_noblock`, and whether the submission error was
traced. -/
def spower2_fire_timer (P : Platform) (g : spower2_ctl) (jiffies : Nat) (submit : Int) :
    spower2_ctl × List Nat × Bool :=
  ({ g with timer_expires := (jiffies + g.timer_period) % P.ULONG_MOD },
   if g.dev ≠ none then [REQUEST_DATA] else [],
   decide (g.dev ≠ none ∧ submit ≠ 0))

/-! ## The completion handler on the device structure -/

/-- The array `int_out_buffer` of `struct usb_spower2`: `spower2_probe`
zero-fills it and stores `REQUEST_DATA` in its first byte, and
`send_packet_spower2_noblock` only stores `REQUEST_DATA` there again. -/
def int_out_buffer : List Char :=
  Char.ofNat REQUEST_DATA :: List.replicate 63 (Char.ofNat 0)

/-- The 64 bytes of the array `int_in_buffer` of `struct usb_spower2` after a
read left `payload` there: the payload, cut at 64 bytes and followed by zero
bytes up to 64. -/
def int_in_buffer (payload : List Char) : List Char :=
  (payload ++ List.replicate (64 - payload.length) (Char.ofNat 0)).take 64

/-- The bytes a `char*` that starts at `dev->int_in_buffer` reaches inside
`struct usb_spower2`: `int_in_buffer` is directly followed by
`int_out_buffer`.  The last byte of `int_out_buffer`, a zero, is the
terminating NUL of the string; what lies behind it is not fixed by the
driver. -/
def device_string (payload : List Char) : List Char :=
  int_in_buffer payload ++ int_out_buffer.take 63

/-- The completion handler `spower2_int_in_callback` as it runs on the device
structure, with `payload` in `dev->int_in_buffer`: the parser is handed the
string that starts at `int_in_buffer`, that is `device_string payload`.  The
handler does not look at what `parse_spower2_sample` returns; when the scan of
the parser reads behind the two buffers, the bytes it meets are not fixed by
the driver, and `wild` stands for the members the parser then leaves in the
local `sample`.  Returns the new global state and the number of times the
read was resubmitted. -/
def spower2_int_in_callback_urb (P : Platform) (g : spower2_ctl) (status : Int)
    (actual_length : Nat) (payload : List Char) (now : Nat) (wild : spower2_sample) :
    spower2_ctl × Nat :=
  if status ≠ 0 then
    if status = -ENOENT ∨ status = -ECONNRESET ∨ status = -ESHUTDOWN then (g, 0)
    else (g, 1)
  else if actual_length > 0 ∧ (peek (int_in_buffer payload)).toNat = REQUEST_DATA then
    let parsed : spower2_sample :=
      match parse_spower2_sample (device_string payload) zero_sample with
      | some r => r.2
      | none => wild
    let ujoules := sample_ujoules P parsed.m_watt now g.time_last_sample
    let sample : spower2_sample :=
      ⟨parsed.m_volts, parsed.m_ampere, parsed.m_watt, parsed.m_watthour, ujoules, now⟩
    ({ g with
       cummulative_energy := (g.cummulative_energy + toUInt64 ujoules) % 18446744073709551616
       time_last_sample := now
       cbuffer := insert_items_cbuffer_t g.cbuffer sample }, 1)
  else (g, 1)

/-! ## Vocabulary of the specification -/

/-- The stored samples a query with cutoff `T` selects: those with
`timestamp ≥ T`, in storage order. -/
def selected (cb : cbuffer_t) (T : Nat) : List spower2_sample :=
  cb.items.filter (fun s => decide (T ≤ s.timestamp))

/-- Exact (unbounded) sum of one field over a list of samples. -/
def field_sum (f : spower2_sample → Int) (l : List spower2_sample) : Int := (l.map f).sum

/-- The predicate "fits in a C `int`". -/
def fits_int (x : Int) : Prop := INT_MIN ≤ x ∧ x ≤ INT_MAX

/-- Truncating quotient of the exact sum of a field by the number of samples. -/
def exact_average (f : spower2_sample → Int) (l : List spower2_sample) : Int :=
  Int.tdiv (field_sum f l) (l.length : Int)

/-- Truncating quotient of the sum of a field, taken in `int` arithmetic, by
the number of samples. -/
def int_average (f : spower2_sample → Int) (l : List spower2_sample) : Int :=
  Int.tdiv (toInt32 (field_sum f l)) (l.length : Int)

/-- A history holding two samples of 2000000 V and 2000000 mJ (as parsed
from a telegram field "2000000.000"). -/
def overflowing_history : spower2_ctl :=
  ⟨none, ⟨[⟨2000000000, 0, 0, 0, 2000000000, 5⟩, ⟨2000000000, 0, 0, 0, 2000000000, 6⟩], 10⟩,
   0, 0, 0, 0, 0⟩

/-- A history with three samples at ticks 5, 6 and 7. -/
def small_history : spower2_ctl :=
  ⟨none, ⟨[⟨4610, 439, 2019, 0, 100, 5⟩, ⟨-1, -1, -1, -1, 7, 6⟩, ⟨4611, 440, 2020, 1, 9, 7⟩], 10⟩,
   0, 0, 0, 0, 0⟩

/-- Value of a string of decimal digits. -/
def digits_value (ds : List Char) : Nat :=
  ds.foldl (fun acc c => acc * 10 + (c.toNat - 48)) 0

/-- Every character is a decimal digit. -/
def all_digits (ds : List Char) : Prop := ∀ c ∈ ds, isdigit c = true

/-- No character is a digit or a minus sign: what the field scan skips. -/
def skippable (sep : List Char) : Prop := ∀ c ∈ sep, isdigit c = false ∧ c ≠ '-'

/-- A separator between two fields: not empty, made of characters that are
neither digits nor minus signs, and not starting with a decimal point. -/
def is_separator (sep : List Char) : Prop :=
  sep ≠ [] ∧ skippable sep ∧ peek sep ≠ '.'

/-- One field of a telegram: `<integer>.<fraction>` or the marker `-.---`. -/
inductive reading where
  | number (ip fp : List Char)
  | unavailable
deriving DecidableEq, Repr

/-- Characters of a field. -/
def reading.text : reading → List Char
  | reading.number ip fp => ip ++ '.' :: fp
  | reading.unavailable => ['-', '.', '-', '-', '-']

/-- Exact value denoted by a field: integer*1000 + fraction, or the sentinel. -/
def reading.exact : reading → Int
  | reading.number ip fp => (digits_value ip : Int) * 1000 + (digits_value fp : Int)
  | reading.unavailable => -1

/-- Value denoted by a field, as a C `int`. -/
def reading.value (r : reading) : Int := toInt32 r.exact

/-- Integer and fraction of a numeric field are non-empty digit strings. -/
def reading.well_formed : reading → Prop
  | reading.number ip fp => ip ≠ [] ∧ fp ≠ [] ∧ all_digits ip ∧ all_digits fp
  | reading.unavailable => True

/-- Characters of a telegram: two status characters, then four fields, each
after its separator, then a tail. -/
def telegram_text (st0 st1 : Char) (sep0 : List Char) (r1 : reading) (sep1 : List Char)
    (r2 : reading) (sep2 : List Char) (r3 : reading) (sep3 : List Char) (r4 : reading)
    (tail : List Char) : List Char :=
  st0 :: st1 :: (sep0 ++ (r1.text ++ (sep1 ++ (r2.text ++ (sep2 ++ (r3.text ++
    (sep3 ++ (r4.text ++ tail))))))))

instance (ds : List Char) : Decidable (all_digits ds) := by
  unfold all_digits
  infer_instance

instance (sep : List Char) : Decidable (skippable sep) := by
  unfold skippable
  infer_instance

instance (sep : List Char) : Decidable (is_separator sep) := by
  unfold is_separator
  infer_instance

instance (r : reading) : Decidable r.well_formed := by
  cases r with
  | number ip fp => unfold reading.well_formed; infer_instance
  | unavailable => unfold reading.well_formed; infer_instance

/-- The sample telegram of the driver source with all four readings. -/
def sample_telegram : List Char := "7 4.610V  0.439 A 2.019W  0.000Wh".toList

/-- The sample telegram of the driver source with the alert marker. -/
def alert_telegram : List Char := "7 4.610V *0.439 A 2.019W  0.000Wh".toList

/-- The sample telegram of the driver source with three readings unavailable. -/
def dashes_telegram : List Char := "7 4.610V  -.--- A -.---W  -.---Wh".toList

/-- A telegram whose voltage field reads 4294967.296, that is 2^32 millivolts. -/
def huge_telegram : List Char := "7 4294967.296V  0.439 A 2.019W  0.000Wh".toList

/-- A telegram whose first two fields are separated by a decimal point. -/
def dotted_telegram : List Char := "7 4.610.0.439   A 2.019W  0.000Wh".toList

/-- A read that completed with status 0 and carries a telegram, `dt` ticks
after the previous sample. -/
structure arrival where
  buffer : List Char
  actual_length : Nat
  dt : Nat
deriving DecidableEq, Repr

/-- Power in mW carried by the telegram of an arrival, as the parser reads it. -/
def arrival.power (a : arrival) : Int :=
  match parse_spower2_sample a.buffer zero_sample with
  | some r => r.2.m_watt
  | none => 0

/-- Exact micro-joule contribution of power `p` mW over `dt` ticks:
p * (dt * 1000 / HZ), truncated to an integer. -/
def exact_ujoules (P : Platform) (p : Int) (dt : Nat) : Int :=
  Int.tdiv (p * (dt : Int) * 1000) (P.HZ : Int)

/-- Micro-joule contribution of an arrival. -/
def arrival.ujoules (P : Platform) (a : arrival) : Int := exact_ujoules P a.power a.dt

/-- The completion handler run on a sequence of arrivals, each `dt` ticks
after the sample before it. -/
def deliver (P : Platform) : spower2_ctl → List arrival → Option spower2_ctl
  | g, [] => some g
  | g, a :: rest =>
    match spower2_int_in_callback P g 0 a.actual_length a.buffer
        ((g.time_last_sample + a.dt) % P.ULONG_MOD) with
    | none => none
    | some r => deliver P r.1 rest

/-- The samples a sequence of arrivals is expected to leave, the first one
`dt` ticks after `last`: the parsed readings, the exact energy term and the
arrival tick. -/
def recorded (P : Platform) : Nat → List arrival → List spower2_sample
  | _, [] => []
  | last, a :: rest =>
    match parse_spower2_sample a.buffer zero_sample with
    | none => []
    | some r =>
      ⟨r.2.m_volts, r.2.m_ampere, r.2.m_watt, r.2.m_watthour, a.ujoules P,
        (last + a.dt) % P.ULONG_MOD⟩ :: recorded P ((last + a.dt) % P.ULONG_MOD) rest

/-- An arrival the energy integration handles exactly: a data telegram that
parses, with a non-negative power whose product with the elapsed milliseconds
fits in `unsigned long` and whose energy term fits in `int`. -/
def arrival.regular (P : Platform) (a : arrival) : Prop :=
  0 < a.actual_length ∧ (peek a.buffer).toNat = REQUEST_DATA ∧
  (parse_spower2_sample a.buffer zero_sample).isSome = true ∧
  0 ≤ a.power ∧ a.power * ((a.dt : Int) * 1000) < (P.ULONG_MOD : Int) ∧
  a.ujoules P ≤ INT_MAX

instance (P : Platform) (a : arrival) : Decidable (a.regular P) := by
  unfold arrival.regular
  infer_instance

/-- A 64-bit kernel with HZ = 250. -/
def kernel64_hz250 : Platform := ⟨250, 64, by decide, Or.inr rfl⟩

/-- A 64-bit kernel with HZ = 100. -/
def kernel64_hz100 : Platform := ⟨100, 64, by decide, Or.inr rfl⟩

/-- A 64-bit kernel with HZ = 1000. -/
def kernel64_hz1000 : Platform := ⟨1000, 64, by decide, Or.inr rfl⟩

/-- A 32-bit kernel with HZ = 250. -/
def kernel32_hz250 : Platform := ⟨250, 32, by decide, Or.inl rfl⟩

/-- The telegram of the scenario of spec section 8, 31 characters long. -/
def scenario_telegram : List Char := "7 5.000V 1.000 A 5.000W 0.000Wh".toList

/-- The telegram of the scenario in the 33-character layout of the device. -/
def scenario_telegram_33 : List Char := "7 5.000V  1.000 A 5.000W  0.000Wh".toList

/-- The state after module initialisation at tick 0, attachment of device 1
and a successful `spower2_start_measurements` at tick `t0`. -/
def started_session (P : Platform) (t0 : Nat) : spower2_ctl :=
  (spower2_start_measurements P (spower2_probe (spower2_register_driver P 0) 1) t0 0).2

/-- A data telegram cut short after the third field (24 characters). -/
def short_telegram : List Char := "7 4.610V  0.439 A 2.019W".toList

/-- Eleven samples, numbered 1 to 11 in `m_volts`, arriving at ticks 1 to 11. -/
def eleven_samples : List spower2_sample :=
  (List.range 11).map (fun i => ⟨((i + 1 : Nat) : Int), 0, 0, 0, 0, i + 1⟩)

/-- The session started at tick 1000 on a 64-bit kernel with HZ = 250 after
its first telegram, received at tick 1100: one sample is stored. -/
def session_with_sample : spower2_ctl :=
  ((spower2_int_in_callback kernel64_hz250 (started_session kernel64_hz250 1000) 0 64
      scenario_telegram_33 1100).map Prod.fst).getD (started_session kernel64_hz250 1000)

/-- A kernel whose tick frequency is 2000000 Hz. -/
def kernel64_hz2000000 : Platform := ⟨2000000, 64, by decide, Or.inr rfl⟩

/-- The state after module initialisation at tick 0 and attachment of device 1. -/
def attached_idle (P : Platform) : spower2_ctl :=
  spower2_probe (spower2_register_driver P 0) 1

/-- A data telegram of 33 characters with three fields and trailing blanks. -/
def three_field_telegram : List Char := "7 4.610V  0.439 A 2.019W         ".toList

/-- A payload of 64 bytes without any digit behind the data tag. -/
def digitless_payload : List Char := Char.ofNat 0x37 :: List.replicate 63 (Char.ofNat 0x78)

/-! ## Lemmas on machine arithmetic -/

theorem toInt32_of_fits (x : Int) (h : fits_int x) : toInt32 x = x := by
  unfold fits_int INT_MIN INT_MAX at h
  unfold toInt32
  omega

theorem toInt32_add_left (a b : Int) : toInt32 (toInt32 a + b) = toInt32 (a + b) := by
  unfold toInt32
  omega

/-! ## Aggregation query (C1) -/

theorem field_sum_nil (f : spower2_sample → Int) : field_sum f [] = 0 := rfl

theorem field_sum_cons (f : spower2_sample → Int) (a : spower2_sample)
    (l : List spower2_sample) : field_sum f (a :: l) = f a + field_sum f l := by
  simp [field_sum]

/-- Closed form of the accumulation loop: nothing changes when no sample is
selected, otherwise every accumulator holds the wrapped sum. -/
theorem summary_loop_eq (T : Nat) (l : List spower2_sample) :
    ∀ (acc : spower2_sample) (nr : Int),
      summary_loop T l acc nr =
        if l.filter (fun s => decide (T ≤ s.timestamp)) = [] then (acc, nr)
        else
          (⟨toInt32 (acc.m_volts + field_sum (fun s => s.m_volts)
                (l.filter (fun s => decide (T ≤ s.timestamp)))),
            toInt32 (acc.m_ampere + field_sum (fun s => s.m_ampere)
                (l.filter (fun s => decide (T ≤ s.timestamp)))),
            toInt32 (acc.m_watt + field_sum (fun s => s.m_watt)
                (l.filter (fun s => decide (T ≤ s.timestamp)))),
            toInt32 (acc.m_watthour + field_sum (fun s => s.m_watthour)
                (l.filter (fun s => decide (T ≤ s.timestamp)))),
            toInt32 (acc.m_ujoules + field_sum (fun s => s.m_ujoules)
                (l.filter (fun s => decide (T ≤ s.timestamp)))),
            acc.timestamp⟩,
           toInt32 (nr + ((l.filter (fun s => decide (T ≤ s.timestamp))).length : Int))) := by
  induction l with
  | nil => intro acc nr; simp [summary_loop]
  | cons cur rest ih =>
    intro acc nr
    by_cases hc : T ≤ cur.timestamp
    · have hge : cur.timestamp ≥ T := hc
      simp only [summary_loop, hge, if_true, List.filter_cons, hc, decide_True, ih]
      by_cases hr : rest.filter (fun s => decide (T ≤ s.timestamp)) = []
      · simp [hr, field_sum_cons, field_sum_nil]
      · simp only [hr, if_false, field_sum_cons, List.length_cons, reduceCtorEq]
        simp only [toInt32_add_left, Nat.cast_add, Nat.cast_one]
        refine Prod.ext ?_ ?_
        · simp only [add_assoc]
        · simp only [add_assoc, add_comm]
    · have hge : ¬ cur.timestamp ≥ T := hc
      simp only [summary_loop, hge, if_false, List.filter_cons, hc, decide_False, ih]
      simp

theorem selected_length_le (cb : cbuffer_t) (T : Nat) :
    (selected cb T).length ≤ cb.items.length := by
  unfold selected
  exact List.length_filter_le _ _

/-- C1 (amended): for every history of at most 10 samples and every cutoff T,
spower2_get_sample returns as count the number of stored samples with
timestamp >= T (0 when T exceeds every stored timestamp, every entry when T is
at most the smallest); when count > 0 the four averaged fields are the
truncating quotient by count of the sum of the selected samples taken in
32-bit int arithmetic and m_ujoules is that int sum, undivided; each of these
is the exact sum (quotient) whenever the exact sum fits in an int; when count
is 0 every field of the output is zero. -/
theorem spower2_get_sample_average (g : spower2_ctl) (T : Nat)
    (hcap : g.cbuffer.items.length ≤ CBUFFER_CAPACITY) :
    (spower2_get_sample g T).1 = ((selected g.cbuffer T).length : Int) ∧
    ((∀ s ∈ g.cbuffer.items, s.timestamp < T) → (spower2_get_sample g T).1 = 0) ∧
    ((∀ s ∈ g.cbuffer.items, T ≤ s.timestamp) →
      (spower2_get_sample g T).1 = (g.cbuffer.items.length : Int)) ∧
    (0 < (spower2_get_sample g T).1 →
      (spower2_get_sample g T).2 =
        ⟨int_average (fun s => s.m_volts) (selected g.cbuffer T),
         int_average (fun s => s.m_ampere) (selected g.cbuffer T),
         int_average (fun s => s.m_watt) (selected g.cbuffer T),
         int_average (fun s => s.m_watthour) (selected g.cbuffer T),
         toInt32 (field_sum (fun s => s.m_ujoules) (selected g.cbuffer T)), 0⟩) ∧
    (∀ f : spower2_sample → Int, fits_int (field_sum f (selected g.cbuffer T)) →
      int_average f (selected g.cbuffer T) = exact_average f (selected g.cbuffer T) ∧
      toInt32 (field_sum f (selected g.cbuffer T)) = field_sum f (selected g.cbuffer T)) ∧
    ((spower2_get_sample g T).1 = 0 → (spower2_get_sample g T).2 = zero_sample) := by
  have hlen : (selected g.cbuffer T).length ≤ 10 :=
    le_trans (selected_length_le g.cbuffer T) hcap
  have hcount : toInt32 (0 + ((selected g.cbuffer T).length : Int))
      = ((selected g.cbuffer T).length : Int) := by
    unfold toInt32
    omega
  have hres : spower2_get_sample g T =
      if selected g.cbuffer T = [] then ((0 : Int), zero_sample)
      else (((selected g.cbuffer T).length : Int),
        ⟨int_average (fun s => s.m_volts) (selected g.cbuffer T),
         int_average (fun s => s.m_ampere) (selected g.cbuffer T),
         int_average (fun s => s.m_watt) (selected g.cbuffer T),
         int_average (fun s => s.m_watthour) (selected g.cbuffer T),
         toInt32 (field_sum (fun s => s.m_ujoules) (selected g.cbuffer T)), 0⟩) := by
    unfold spower2_get_sample get_summary_samples
    rw [summary_loop_eq]
    by_cases hsel : selected g.cbuffer T = []
    · have hsel2 := hsel
      unfold selected at hsel2
      simp [hsel, hsel2, zero_sample]
    · have hsel2 := hsel
      unfold selected at hsel2
      have hpos : 0 < (selected g.cbuffer T).length := List.length_pos.mpr hsel
      have hpos2 : (0 : Int) < ((selected g.cbuffer T).length : Int) := by exact_mod_cast hpos
      have hcount2 := hcount
      unfold selected at hcount2 hpos2
      simp only [hsel, hsel2, if_false, hcount2]
      simp only [hpos2, gt_iff_lt, if_true, zero_add, int_average, selected]
  refine ⟨?_, ?_, ?_, ?_, ?_, ?_⟩
  · rw [hres]
    by_cases hsel : selected g.cbuffer T = []
    · simp [hsel]
    · simp [hsel]
  · intro hall
    have hsel : selected g.cbuffer T = [] := by
      unfold selected
      rw [List.filter_eq_nil_iff]
      intro s hs
      have := hall s hs
      simp only [decide_eq_true_eq, not_le]
      exact this
    rw [hres]
    simp [hsel]
  · intro hall
    have hsel : selected g.cbuffer T = g.cbuffer.items := by
      unfold selected
      rw [List.filter_eq_self]
      intro s hs
      simpa using hall s hs
    rw [hres, hsel]
    by_cases hnil : g.cbuffer.items = []
    · simp [hnil]
    · simp [hnil]
  · intro hpos
    rw [hres] at hpos ⊢
    by_cases hsel : selected g.cbuffer T = []
    · simp [hsel] at hpos
    · simp [hsel]
  · intro f hf
    refine ⟨?_, toInt32_of_fits _ hf⟩
    unfold int_average exact_average
    rw [toInt32_of_fits _ hf]
  · intro hz
    rw [hres] at hz ⊢
    by_cases hsel : selected g.cbuffer T = []
    · simp [hsel]
    · simp [hsel] at hz

/-- Witness of C1 on a history of three samples queried from tick 6. -/
theorem spower2_get_sample_average_witness :
    small_history.cbuffer.items.length ≤ CBUFFER_CAPACITY ∧
    (spower2_get_sample small_history 6).1 = ((selected small_history.cbuffer 6).length : Int) ∧
    (spower2_get_sample small_history 6) = (2, ⟨2305, 219, 1009, 0, 16, 0⟩) :=
  ⟨by decide, (spower2_get_sample_average small_history 6 (by decide)).1, by decide⟩

/-- Counterexample to C1 as stated: two stored samples of 2000000000 each give
an average of -147483648 and an energy sum of -294967296, while the exact
quotient is 2000000000 and the exact sum 4000000000. -/
theorem spower2_get_sample_overflow :
    spower2_get_sample overflowing_history 0 = (2, ⟨-147483648, 0, 0, 0, -294967296, 0⟩) ∧
    (selected overflowing_history.cbuffer 0).length = 2 ∧
    exact_average (fun s => s.m_volts) (selected overflowing_history.cbuffer 0) = 2000000000 ∧
    field_sum (fun s => s.m_ujoules) (selected overflowing_history.cbuffer 0) = 4000000000 := by
  decide

/-! ## Telegram parser (C2 to C5) -/

theorem isdigit_ne_minus (c : Char) (h : isdigit c = true) : c ≠ '-' := by
  rintro rfl
  exact absurd h (by decide)

theorem isdigit_ne_nul (c : Char) (h : isdigit c = true) : c ≠ Char.ofNat 0 := by
  rintro rfl
  exact absurd h (by decide)

theorem isdigit_not_space (c : Char) (h : isdigit c = true) : isspace c = false := by
  unfold isdigit at h
  unfold isspace
  simp only [Bool.and_eq_true, decide_eq_true_eq] at h
  simp only [Bool.or_eq_false_iff, Bool.and_eq_false_imp, decide_eq_true_eq,
    decide_eq_false_iff_not]
  omega

theorem skip_to_number_append (sep : List Char) (hsep : skippable sep) (s : List Char) :
    ∀ len : Nat, skip_to_number (sep ++ s) len = skip_to_number s (len + sep.length) := by
  induction sep with
  | nil => intro len; simp
  | cons c cs ih =>
    intro len
    have hc := hsep c (List.mem_cons_self c cs)
    have hcs : skippable cs := fun d hd => hsep d (List.mem_cons_of_mem c hd)
    have hne : (c != '-') = true := by simpa using hc.2
    have hstep : skip_to_number (c :: (cs ++ s)) len = skip_to_number (cs ++ s) (len + 1) := by
      simp [skip_to_number, hc.1, hne]
    rw [List.cons_append, hstep, ih hcs, List.length_cons]
    rw [show len + 1 + cs.length = len + (cs.length + 1) by omega]

theorem skip_to_number_stop (c : Char) (cs : List Char) (len : Nat)
    (h : isdigit c = true ∨ c = '-') :
    skip_to_number (c :: cs) len = some (c :: cs, len) := by
  rcases h with h | h
  · simp [skip_to_number, h]
  · simp [skip_to_number, h]

theorem digit_fold_congr (ds : List Char) :
    ∀ a b : Nat, a % 18446744073709551616 = b % 18446744073709551616 →
      (ds.foldl (fun acc c => acc * 10 + (c.toNat - 48)) a) % 18446744073709551616 =
      (ds.foldl (fun acc c => acc * 10 + (c.toNat - 48)) b) % 18446744073709551616 := by
  induction ds with
  | nil => intro a b h; simpa using h
  | cons c cs ih =>
    intro a b h
    simp only [List.foldl_cons]
    apply ih
    omega

theorem simple_strtoull_digits (ds : List Char) (hds : all_digits ds) (rest : List Char)
    (hrest : isdigit (peek rest) = false) :
    ∀ acc : Nat,
      (simple_strtoull (ds ++ rest) acc).2 = rest ∧
      (simple_strtoull (ds ++ rest) acc).1 % 18446744073709551616 =
        (ds.foldl (fun a c => a * 10 + (c.toNat - 48)) acc) % 18446744073709551616 := by
  induction ds with
  | nil =>
    intro acc
    cases rest with
    | nil => simp [simple_strtoull]
    | cons c cs =>
      have hc : isdigit c = false := by simpa [peek] using hrest
      simp [simple_strtoull, hc]
  | cons c cs ih =>
    intro acc
    have hc : isdigit c = true := hds c (List.mem_cons_self c cs)
    have hcs : all_digits cs := fun d hd => hds d (List.mem_cons_of_mem c hd)
    have hstep : simple_strtoull (c :: (cs ++ rest)) acc =
        simple_strtoull (cs ++ rest) ((acc * 10 + (c.toNat - 48)) % 18446744073709551616) := by
      simp [simple_strtoull, hc]
    rw [List.cons_append, hstep]
    refine ⟨(ih hcs _).1, ?_⟩
    rw [(ih hcs _).2, List.foldl_cons]
    apply digit_fold_congr
    omega

theorem toInt32_natCast_congr (a b : Nat)
    (h : a % 18446744073709551616 = b % 18446744073709551616) :
    toInt32 (a : Int) = toInt32 (b : Int) := by
  unfold toInt32
  omega

/-- A `%d` conversion reads a non-empty run of digits up to the first
character that is not a digit. -/
theorem scan_d_digits (ds : List Char) (hne : ds ≠ []) (hds : all_digits ds) (rest : List Char)
    (hrest : isdigit (peek rest) = false) :
    scan_d (ds ++ rest) = some (toInt32 (digits_value ds : Int), rest) := by
  cases ds with
  | nil => exact absurd rfl hne
  | cons c cs =>
    have hc : isdigit c = true := hds c (List.mem_cons_self c cs)
    have h0 : c ≠ Char.ofNat 0 := isdigit_ne_nul c hc
    have hm : c ≠ '-' := isdigit_ne_minus c hc
    have hs : isspace c = false := isdigit_not_space c hc
    have hskip : skip_spaces (c :: (cs ++ rest)) = c :: (cs ++ rest) := by
      simp [skip_spaces, hs]
    have hp : peek (c :: (cs ++ rest)) = c := rfl
    have hstr := simple_strtoull_digits (c :: cs) hds rest hrest 0
    rw [List.cons_append] at hstr
    have hval : toInt32 ((simple_strtoull (c :: (cs ++ rest)) 0).1 : Int)
        = toInt32 (digits_value (c :: cs) : Int) :=
      toInt32_natCast_congr _ _ hstr.2
    unfold scan_d
    rw [List.cons_append, hp, if_neg h0]
    simp only [hskip, hp, if_neg hm, hc, Bool.not_true, Bool.or_false, decide_eq_true_eq, h0,
      if_false, simple_strtol, hval, hstr.1]

theorem peek_dot_cons (l : List Char) : peek ('.' :: l) = '.' := rfl

/-- The call `sscanf(str, "%d.%d", ...)` on `<integer>.<fraction>` converts both
numbers. -/
theorem sscanf_number (ip fp : List Char) (hr : (reading.number ip fp).well_formed)
    (rest : List Char) (hrest : isdigit (peek rest) = false) (u d : Int) :
    sscanf_d_dot_d (ip ++ '.' :: (fp ++ rest)) u d =
      (2, toInt32 (digits_value ip : Int), toInt32 (digits_value fp : Int)) := by
  obtain ⟨hip, hfp, hipd, hfpd⟩ := hr
  have h1 := scan_d_digits ip hip hipd ('.' :: (fp ++ rest)) (by rw [peek_dot_cons]; decide)
  have h2 := scan_d_digits fp hfp hfpd rest hrest
  unfold sscanf_d_dot_d
  rw [h1]
  simp only [peek_dot_cons, if_true, List.drop_succ_cons, List.drop_zero, h2]

theorem skip_number_append (xs : List Char) (hxs : ∀ c ∈ xs, isdigit c = true ∨ c = '.')
    (rest : List Char) (hrest : isdigit (peek rest) = false) (hdot : peek rest ≠ '.') :
    ∀ len : Nat, skip_number (xs ++ rest) len = len + xs.length := by
  induction xs with
  | nil =>
    intro len
    cases rest with
    | nil => simp [skip_number]
    | cons c cs =>
      have hc : isdigit c = false := by simpa [peek] using hrest
      have hd : c ≠ '.' := by simpa [peek] using hdot
      simp [skip_number, hc, hd]
  | cons c cs ih =>
    intro len
    have hc := hxs c (List.mem_cons_self c cs)
    have hcs : ∀ d ∈ cs, isdigit d = true ∨ d = '.' :=
      fun d hd => hxs d (List.mem_cons_of_mem c hd)
    have hstep : skip_number (c :: (cs ++ rest)) len = skip_number (cs ++ rest) (len + 1) := by
      rcases hc with hc | hc
      · simp [skip_number, hc]
      · simp [skip_number, hc]
    rw [List.cons_append, hstep, ih hcs, List.length_cons]
    omega

theorem toInt32_scaled (a b : Int) :
    toInt32 (toInt32 (toInt32 a * 1000) + toInt32 b) = toInt32 (a * 1000 + b) := by
  unfold toInt32
  omega

/-- The field scan on `<integer>.<fraction>` after a skipped separator: the
value is integer*1000 + fraction as an `int`; the advance is what the
number-skipping loop counts. -/
theorem spower2_parse_float_number (sep : List Char) (hsep : skippable sep) (ip fp : List Char)
    (hr : (reading.number ip fp).well_formed) (rest : List Char)
    (hrest : isdigit (peek rest) = false) :
    spower2_parse_float (sep ++ (ip ++ '.' :: (fp ++ rest))) =
      some (toInt32 ((digits_value ip : Int) * 1000 + (digits_value fp : Int)),
            skip_number (ip ++ '.' :: (fp ++ rest)) sep.length) := by
  have hsc := sscanf_number ip fp hr rest hrest 0 0
  obtain ⟨hip, hfp, hipd, hfpd⟩ := hr
  cases ip with
  | nil => exact absurd rfl hip
  | cons c cs =>
    have hc : isdigit c = true := hipd c (List.mem_cons_self c cs)
    have hm : c ≠ '-' := isdigit_ne_minus c hc
    have hskip : skip_to_number (sep ++ (c :: cs ++ '.' :: (fp ++ rest))) 0 =
        some (c :: cs ++ '.' :: (fp ++ rest), sep.length) := by
      rw [skip_to_number_append sep hsep, List.cons_append, skip_to_number_stop _ _ _ (Or.inl hc)]
      simp
    unfold spower2_parse_float
    rw [hskip]
    simp only [hsc, ne_eq, not_true_eq_false, if_false, toInt32_scaled]
    have hp : peek (c :: cs ++ '.' :: (fp ++ rest)) = c := rfl
    rw [hp, if_neg hm]

/-- The field scan on a field that starts with a minus sign: the advance is
the skipped length plus 5, and the value is -1 unless a digit follows the
sign. -/
theorem spower2_parse_float_minus (sep : List Char) (hsep : skippable sep) (rest : List Char) :
    ∃ v : Int, spower2_parse_float (sep ++ '-' :: rest) = some (v, sep.length + 5) ∧
      (isdigit (peek rest) = false → v = -1) := by
  have hskip : skip_to_number (sep ++ '-' :: rest) 0 = some ('-' :: rest, sep.length) := by
    rw [skip_to_number_append sep hsep, skip_to_number_stop _ _ _ (Or.inr rfl)]
    simp
  have hp : peek ('-' :: rest) = '-' := rfl
  refine ⟨if (sscanf_d_dot_d ('-' :: rest) 0 0).1 ≠ 2 then -1
      else toInt32 (toInt32 ((sscanf_d_dot_d ('-' :: rest) 0 0).2.1 * 1000)
        + (sscanf_d_dot_d ('-' :: rest) 0 0).2.2), ?_, ?_⟩
  · unfold spower2_parse_float
    rw [hskip]
    simp only [hp, if_true]
  · intro hd
    have hscan : scan_d ('-' :: rest) = none := by
      have hsk : skip_spaces ('-' :: rest) = '-' :: rest := by
        rw [skip_spaces, if_neg (by decide)]
      unfold scan_d
      rw [hp, if_neg (by decide)]
      simp [hsk, hp, hd]
    simp [sscanf_d_dot_d, hscan]

/-- The field scan on a well-formed field after a skipped separator, followed
by something that does not start with a digit: the value of the field; the
advance ends right behind the field when no decimal point follows. -/
theorem spower2_parse_float_reading (sep : List Char) (hsep : skippable sep) (r : reading)
    (hr : r.well_formed) (rest : List Char) (hrest : isdigit (peek rest) = false) :
    ∃ n : Nat, spower2_parse_float (sep ++ (r.text ++ rest)) = some (r.value, n) ∧
      (peek rest ≠ '.' → n = sep.length + r.text.length) := by
  cases r with
  | number ip fp =>
    refine ⟨skip_number (ip ++ '.' :: (fp ++ rest)) sep.length, ?_, ?_⟩
    · have h := spower2_parse_float_number sep hsep ip fp hr rest hrest
      simp only [reading.text, reading.value, reading.exact, List.append_assoc, List.cons_append]
      exact h
    · intro hdot
      have hxs : ∀ c ∈ ip ++ '.' :: fp, isdigit c = true ∨ c = '.' := by
        intro c hc
        rcases List.mem_append.mp hc with h | h
        · exact Or.inl (hr.2.2.1 c h)
        · rcases List.mem_cons.mp h with h | h
          · exact Or.inr h
          · exact Or.inl (hr.2.2.2 c h)
      have := skip_number_append (ip ++ '.' :: fp) hxs rest hrest hdot sep.length
      simp only [List.append_assoc, List.cons_append] at this
      simpa [reading.text] using this
  | unavailable =>
    obtain ⟨v, hv, hval⟩ := spower2_parse_float_minus sep hsep ('.' :: '-' :: '-' :: '-' :: rest)
    have hv1 : v = -1 := hval (by rw [peek_dot_cons]; decide)
    refine ⟨sep.length + 5, ?_, ?_⟩
    · simp only [reading.text, List.cons_append, List.nil_append]
      rw [hv, hv1]
      rfl
    · intro _
      simp [reading.text]

theorem advance_append (a b : List Char) : advance (a ++ b) a.length = some b := by
  unfold advance
  rw [if_pos (by simp), List.drop_left]

theorem separator_peek (sep : List Char) (hsep : is_separator sep) (rest : List Char) :
    isdigit (peek (sep ++ rest)) = false ∧ peek (sep ++ rest) ≠ '.' := by
  obtain ⟨hne, hskip, hdot⟩ := hsep
  cases sep with
  | nil => exact absurd rfl hne
  | cons c cs => exact ⟨(hskip c (List.mem_cons_self c cs)).1, hdot⟩

/-- One step of the telegram scan: the field is read and the cursor lands
right behind it. -/
theorem field_then_advance (sep : List Char) (hsep : skippable sep) (r : reading)
    (hr : r.well_formed) (rest : List Char) (hrest : isdigit (peek rest) = false)
    (hdot : peek rest ≠ '.') :
    ∃ n : Nat, spower2_parse_float (sep ++ (r.text ++ rest)) = some (r.value, n) ∧
      advance (sep ++ (r.text ++ rest)) n = some rest := by
  obtain ⟨n, hn, hadv⟩ := spower2_parse_float_reading sep hsep r hr rest hrest
  refine ⟨n, hn, ?_⟩
  rw [hadv hdot, ← List.length_append, ← List.append_assoc]
  exact advance_append _ _

/-- The parser on a telegram of at least 33 characters built from a status
field, four well-formed fields and proper separators reads the four fields in
order. -/
theorem parse_telegram (st0 st1 : Char) (sep0 : List Char) (r1 : reading) (sep1 : List Char)
    (r2 : reading) (sep2 : List Char) (r3 : reading) (sep3 : List Char) (r4 : reading)
    (tail : List Char) (sample : spower2_sample)
    (hlen : 33 ≤ strlen (telegram_text st0 st1 sep0 r1 sep1 r2 sep2 r3 sep3 r4 tail))
    (h0 : skippable sep0) (h1 : is_separator sep1) (h2 : is_separator sep2)
    (h3 : is_separator sep3) (hr1 : r1.well_formed) (hr2 : r2.well_formed)
    (hr3 : r3.well_formed) (hr4 : r4.well_formed) (htail : isdigit (peek tail) = false) :
    parse_spower2_sample (telegram_text st0 st1 sep0 r1 sep1 r2 sep2 r3 sep3 r4 tail) sample =
      some (0, ⟨r1.value, r2.value, r3.value, r4.value, sample.m_ujoules, sample.timestamp⟩) := by
  obtain ⟨n1, hp1, ha1⟩ := field_then_advance sep0 h0 r1 hr1
    (sep1 ++ (r2.text ++ (sep2 ++ (r3.text ++ (sep3 ++ (r4.text ++ tail))))))
    (separator_peek sep1 h1 _).1 (separator_peek sep1 h1 _).2
  obtain ⟨n2, hp2, ha2⟩ := field_then_advance sep1 h1.2.1 r2 hr2
    (sep2 ++ (r3.text ++ (sep3 ++ (r4.text ++ tail))))
    (separator_peek sep2 h2 _).1 (separator_peek sep2 h2 _).2
  obtain ⟨n3, hp3, ha3⟩ := field_then_advance sep2 h2.2.1 r3 hr3
    (sep3 ++ (r4.text ++ tail))
    (separator_peek sep3 h3 _).1 (separator_peek sep3 h3 _).2
  obtain ⟨n4, hp4, _⟩ := spower2_parse_float_reading sep3 h3.2.1 r4 hr4 tail htail
  unfold parse_spower2_sample
  rw [if_neg (by omega)]
  simp only [telegram_text, List.drop_succ_cons, List.drop_zero, hp1, ha1, hp2, ha2, hp3, ha3,
    hp4, Option.some_bind, Option.map_some, Option.bind_some, Option.map]

/-- C2 (amended): for every telegram of at least 33 characters made of two
status characters followed by four fields integer.fraction (non-empty digit
strings, so in particular 3-digit fractions), where each field is separated
from the next by a non-empty run of characters that are neither digits nor
minus signs and that does not start with a decimal point, and the last field
is not followed by a digit, parse_spower2_sample returns 0 and sets m_volts,
m_ampere, m_watt and m_watthour, in that order, to integer*1000 + fraction of
the first to fourth field converted to a 32-bit int, which is exactly
integer*1000 + fraction whenever that is at most INT_MAX; the sample telegram
yields 4610, 439, 2019, 0. -/
theorem parse_spower2_sample_numbers (st0 st1 : Char) (sep0 i1 f1 sep1 i2 f2 sep2 i3 f3 sep3
    i4 f4 tail : List Char) (sample : spower2_sample)
    (hlen : 33 ≤ strlen (telegram_text st0 st1 sep0 (reading.number i1 f1) sep1
      (reading.number i2 f2) sep2 (reading.number i3 f3) sep3 (reading.number i4 f4) tail))
    (h0 : skippable sep0) (h1 : is_separator sep1) (h2 : is_separator sep2)
    (h3 : is_separator sep3) (hr1 : (reading.number i1 f1).well_formed)
    (hr2 : (reading.number i2 f2).well_formed) (hr3 : (reading.number i3 f3).well_formed)
    (hr4 : (reading.number i4 f4).well_formed) (htail : isdigit (peek tail) = false) :
    parse_spower2_sample (telegram_text st0 st1 sep0 (reading.number i1 f1) sep1
        (reading.number i2 f2) sep2 (reading.number i3 f3) sep3 (reading.number i4 f4) tail)
        sample =
      some (0, ⟨toInt32 ((digits_value i1 : Int) * 1000 + (digits_value f1 : Int)),
                toInt32 ((digits_value i2 : Int) * 1000 + (digits_value f2 : Int)),
                toInt32 ((digits_value i3 : Int) * 1000 + (digits_value f3 : Int)),
                toInt32 ((digits_value i4 : Int) * 1000 + (digits_value f4 : Int)),
                sample.m_ujoules, sample.timestamp⟩) ∧
    (∀ ip fp : List Char, (digits_value ip : Int) * 1000 + (digits_value fp : Int) ≤ INT_MAX →
      toInt32 ((digits_value ip : Int) * 1000 + (digits_value fp : Int)) =
        (digits_value ip : Int) * 1000 + (digits_value fp : Int)) ∧
    parse_spower2_sample sample_telegram sample =
      some (0, ⟨4610, 439, 2019, 0, sample.m_ujoules, sample.timestamp⟩) := by
  refine ⟨?_, ?_, ?_⟩
  · exact parse_telegram st0 st1 sep0 _ sep1 _ sep2 _ sep3 _ tail sample hlen h0 h1 h2 h3
      hr1 hr2 hr3 hr4 htail
  · intro ip fp h
    apply toInt32_of_fits
    unfold fits_int INT_MIN
    constructor
    · have h1 : (0 : Int) ≤ (digits_value ip : Int) := Int.natCast_nonneg _
      have h2 : (0 : Int) ≤ (digits_value fp : Int) := Int.natCast_nonneg _
      omega
    · exact h
  · exact parse_telegram '7' ' ' [] (reading.number ['4'] ['6', '1', '0']) ['V', ' ', ' ']
      (reading.number ['0'] ['4', '3', '9']) [' ', 'A', ' ']
      (reading.number ['2'] ['0', '1', '9']) ['W', ' ', ' ']
      (reading.number ['0'] ['0', '0', '0']) ['W', 'h'] sample
      (by decide) (by decide) (by decide) (by decide) (by decide) (by decide) (by decide)
      (by decide) (by decide) (by decide)

/-- Witness of C2: the sample telegram of the driver source. -/
theorem parse_spower2_sample_numbers_witness :
    33 ≤ strlen sample_telegram ∧
    parse_spower2_sample sample_telegram zero_sample = some (0, ⟨4610, 439, 2019, 0, 0, 0⟩) :=
  ⟨by decide,
   (parse_spower2_sample_numbers '7' ' ' [] ['4'] ['6', '1', '0'] ['V', ' ', ' ']
      ['0'] ['4', '3', '9'] [' ', 'A', ' '] ['2'] ['0', '1', '9'] ['W', ' ', ' ']
      ['0'] ['0', '0', '0'] ['W', 'h'] zero_sample
      (by decide) (by decide) (by decide) (by decide) (by decide) (by decide) (by decide)
      (by decide) (by decide) (by decide)).1⟩

/-- Counterexample to C2 as stated: a voltage field 4294967.296 is read as 0,
not as 4294967296; and with a decimal point as the only separator between the
first two fields the second field is not read as the current (the scan leaves
the string). -/
theorem parse_spower2_sample_misreads :
    (33 ≤ strlen huge_telegram ∧
      huge_telegram = telegram_text '7' ' ' [] (reading.number "4294967".toList "296".toList)
        "V  ".toList (reading.number "0".toList "439".toList) " A ".toList
        (reading.number "2".toList "019".toList) "W  ".toList
        (reading.number "0".toList "000".toList) "Wh".toList ∧
      (reading.number "4294967".toList "296".toList).exact = 4294967296 ∧
      parse_spower2_sample huge_telegram zero_sample = some (0, ⟨0, 439, 2019, 0, 0, 0⟩)) ∧
    (33 ≤ strlen dotted_telegram ∧
      dotted_telegram = telegram_text '7' ' ' [] (reading.number "4".toList "610".toList)
        ".".toList (reading.number "0".toList "439".toList) "   A ".toList
        (reading.number "2".toList "019".toList) "W  ".toList
        (reading.number "0".toList "000".toList) "Wh".toList ∧
      skippable ".".toList ∧
      spower2_parse_float (dotted_telegram.drop 2) = some (4610, 11) ∧
      spower2_parse_float (dotted_telegram.drop 13) = some (2019, 10) ∧
      parse_spower2_sample dotted_telegram zero_sample = none) := by
  decide

/-- C3: for every string shorter than 33 characters (the empty string
included) parse_spower2_sample returns 1 and sets m_volts, m_ampere, m_watt and
m_watthour to -1 whatever the string holds; no field is scanned, the other two
members of the sample are left as they were. -/
theorem parse_spower2_sample_short (str : List Char) (sample : spower2_sample)
    (h : strlen str < 33) :
    parse_spower2_sample str sample =
      some (1, ⟨-1, -1, -1, -1, sample.m_ujoules, sample.timestamp⟩) := by
  unfold parse_spower2_sample
  rw [if_pos h]

/-- Witness of C3: the empty string. -/
theorem parse_spower2_sample_short_witness :
    strlen [] < 33 ∧
    parse_spower2_sample [] zero_sample = some (1, ⟨-1, -1, -1, -1, 0, 0⟩) :=
  ⟨by decide, parse_spower2_sample_short [] zero_sample (by decide)⟩

/-- C4 (amended): for every field handed to spower2_parse_float whose first
character after the skipped run (neither digits nor minus signs) is a minus
sign, the returned advance is the number of skipped characters plus 5, and the
value is -1 whenever no digit follows the minus sign (as in the marker -.---);
the telegram with three such markers parses to m_volts = 4610 and
m_ampere = m_watt = m_watthour = -1. -/
theorem spower2_parse_float_unavailable (sep rest : List Char) (hsep : skippable sep) :
    (∃ v : Int, spower2_parse_float (sep ++ '-' :: rest) = some (v, sep.length + 5)) ∧
    (isdigit (peek rest) = false →
      spower2_parse_float (sep ++ '-' :: rest) = some (-1, sep.length + 5)) ∧
    parse_spower2_sample dashes_telegram zero_sample = some (0, ⟨4610, -1, -1, -1, 0, 0⟩) := by
  obtain ⟨v, hv, hval⟩ := spower2_parse_float_minus sep hsep rest
  refine ⟨⟨v, hv⟩, ?_, by decide⟩
  intro hd
  rw [hv, hval hd]

/-- Witness of C4: the field " -.--- A" behind a skipped "V ". -/
theorem spower2_parse_float_unavailable_witness :
    skippable "V  ".toList ∧
    spower2_parse_float "V  -.--- A".toList = some (-1, 8) :=
  ⟨by decide,
   (spower2_parse_float_unavailable "V  ".toList ".--- A".toList (by decide)).2.1 (by decide)⟩

/-- Counterexample to C4 as stated: the field -5.000 starts with a minus sign
and is parsed as -5000, not as the sentinel -1. -/
theorem spower2_parse_float_negative :
    skippable "V  ".toList ∧
    spower2_parse_float ("V  ".toList ++ '-' :: "5.000 A".toList) = some (-5000, 8) := by
  decide

theorem strlen_replace (a b : List Char) (c d : Char) (hc : c ≠ Char.ofNat 0)
    (hd : d ≠ Char.ofNat 0) : strlen (a ++ c :: b) = strlen (a ++ d :: b) := by
  induction a with
  | nil => simp [strlen, hc, hd]
  | cons x xs ih => simp [strlen, ih]

theorem is_separator_marker (sepA : List Char) (h : is_separator (sepA ++ [' '])) :
    is_separator (sepA ++ ['*']) := by
  obtain ⟨_, hskip, hdot⟩ := h
  refine ⟨by simp, ?_, ?_⟩
  · intro c hc
    rcases List.mem_append.mp hc with hc | hc
    · exact hskip c (List.mem_append_left _ hc)
    · have : c = '*' := by simpa using hc
      subst this
      decide
  · cases sepA with
    | nil => decide
    | cons x xs => exact hdot

theorem telegram_text_split (st0 st1 : Char) (sep0 : List Char) (r1 : reading)
    (sepA : List Char) (c : Char) (r2 : reading) (sep2 : List Char) (r3 : reading)
    (sep3 : List Char) (r4 : reading) (tail : List Char) :
    telegram_text st0 st1 sep0 r1 (sepA ++ [c]) r2 sep2 r3 sep3 r4 tail =
      (st0 :: st1 :: (sep0 ++ (r1.text ++ sepA))) ++
        c :: (r2.text ++ (sep2 ++ (r3.text ++ (sep3 ++ (r4.text ++ tail))))) := by
  simp [telegram_text]

/-- C5: for every well-formed telegram of at least 33 characters (two status
characters, four fields that are numbers integer.fraction or the marker
-.---, proper separators), replacing the blank immediately before the current
field by the alert marker * does not change the result of
parse_spower2_sample: with and without the marker the four values are those
of the four fields; both sample telegrams of the source yield 4610, 439,
2019, 0. -/
theorem parse_spower2_sample_alert_marker (st0 st1 : Char) (sep0 : List Char) (r1 : reading)
    (sepA : List Char) (r2 : reading) (sep2 : List Char) (r3 : reading) (sep3 : List Char)
    (r4 : reading) (tail : List Char) (sample : spower2_sample)
    (hlen : 33 ≤ strlen (telegram_text st0 st1 sep0 r1 (sepA ++ [' ']) r2 sep2 r3 sep3 r4 tail))
    (h0 : skippable sep0) (h1 : is_separator (sepA ++ [' '])) (h2 : is_separator sep2)
    (h3 : is_separator sep3) (hr1 : r1.well_formed) (hr2 : r2.well_formed)
    (hr3 : r3.well_formed) (hr4 : r4.well_formed) (htail : isdigit (peek tail) = false) :
    parse_spower2_sample
        (telegram_text st0 st1 sep0 r1 (sepA ++ ['*']) r2 sep2 r3 sep3 r4 tail) sample =
      parse_spower2_sample
        (telegram_text st0 st1 sep0 r1 (sepA ++ [' ']) r2 sep2 r3 sep3 r4 tail) sample ∧
    parse_spower2_sample
        (telegram_text st0 st1 sep0 r1 (sepA ++ [' ']) r2 sep2 r3 sep3 r4 tail) sample =
      some (0, ⟨r1.value, r2.value, r3.value, r4.value, sample.m_ujoules, sample.timestamp⟩) ∧
    parse_spower2_sample alert_telegram sample =
      some (0, ⟨4610, 439, 2019, 0, sample.m_ujoules, sample.timestamp⟩) ∧
    parse_spower2_sample sample_telegram sample =
      some (0, ⟨4610, 439, 2019, 0, sample.m_ujoules, sample.timestamp⟩) := by
  have hlen2 : 33 ≤ strlen
      (telegram_text st0 st1 sep0 r1 (sepA ++ ['*']) r2 sep2 r3 sep3 r4 tail) := by
    rw [telegram_text_split] at hlen ⊢
    rw [strlen_replace _ _ '*' ' ' (by decide) (by decide)]
    exact hlen
  have hblank := parse_telegram st0 st1 sep0 r1 (sepA ++ [' ']) r2 sep2 r3 sep3 r4 tail sample
    hlen h0 h1 h2 h3 hr1 hr2 hr3 hr4 htail
  have hstar := parse_telegram st0 st1 sep0 r1 (sepA ++ ['*']) r2 sep2 r3 sep3 r4 tail sample
    hlen2 h0 (is_separator_marker sepA h1) h2 h3 hr1 hr2 hr3 hr4 htail
  refine ⟨by rw [hblank, hstar], hblank, ?_, ?_⟩
  · exact parse_telegram '7' ' ' [] (reading.number ['4'] ['6', '1', '0']) ['V', ' ', '*']
      (reading.number ['0'] ['4', '3', '9']) [' ', 'A', ' ']
      (reading.number ['2'] ['0', '1', '9']) ['W', ' ', ' ']
      (reading.number ['0'] ['0', '0', '0']) ['W', 'h'] sample
      (by decide) (by decide) (by decide) (by decide) (by decide) (by decide) (by decide)
      (by decide) (by decide) (by decide)
  · exact parse_telegram '7' ' ' [] (reading.number ['4'] ['6', '1', '0']) ['V', ' ', ' ']
      (reading.number ['0'] ['4', '3', '9']) [' ', 'A', ' ']
      (reading.number ['2'] ['0', '1', '9']) ['W', ' ', ' ']
      (reading.number ['0'] ['0', '0', '0']) ['W', 'h'] sample
      (by decide) (by decide) (by decide) (by decide) (by decide) (by decide) (by decide)
      (by decide) (by decide) (by decide)

/-- Witness of C5: the two sample telegrams of the driver source. -/
theorem parse_spower2_sample_alert_marker_witness :
    33 ≤ strlen sample_telegram ∧
    parse_spower2_sample alert_telegram zero_sample =
      parse_spower2_sample sample_telegram zero_sample :=
  ⟨by decide,
   (parse_spower2_sample_alert_marker '7' ' ' [] (reading.number ['4'] ['6', '1', '0'])
      ['V', ' '] (reading.number ['0'] ['4', '3', '9']) [' ', 'A', ' ']
      (reading.number ['2'] ['0', '1', '9']) ['W', ' ', ' ']
      (reading.number ['0'] ['0', '0', '0']) ['W', 'h'] zero_sample
      (by decide) (by decide) (by decide) (by decide) (by decide) (by decide) (by decide)
      (by decide) (by decide) (by decide)).1⟩

/-! ## Energy integration (C6 to C9) -/

theorem ulong_elapsed (P : Platform) (last dt : Nat) :
    ((last + dt) % P.ULONG_MOD + P.ULONG_MOD - last % P.ULONG_MOD) % P.ULONG_MOD
      = dt % P.ULONG_MOD := by
  rcases P.long_width with h | h
  · simp only [Platform.ULONG_MOD, h, Nat.reducePow]
    omega
  · simp only [Platform.ULONG_MOD, h, Nat.reducePow]
    omega

theorem ulong_mod_pos (P : Platform) : 0 < P.ULONG_MOD := by
  unfold Platform.ULONG_MOD
  exact Nat.pos_pow_of_pos _ (by decide)

theorem toInt32_natCast_of_le (q : Nat) (h : q ≤ 2147483647) : toInt32 (q : Int) = (q : Int) := by
  unfold toInt32
  omega

theorem toUInt64_natCast_of_le (q : Nat) (h : q ≤ 2147483647) : toUInt64 (q : Int) = q := by
  unfold toUInt64
  omega

/-- The energy stored for a sample of non-negative power `n` mW that arrives
`dt` ticks after the previous one is the exact truncated term, as long as the
product fits in `unsigned long` and the term in `int`. -/
theorem sample_ujoules_nat (P : Platform) (n dt last : Nat)
    (hprod : n * (dt * 1000) < P.ULONG_MOD) (hfit : n * (dt * 1000) / P.HZ ≤ 2147483647) :
    sample_ujoules P (n : Int) ((last + dt) % P.ULONG_MOD) last =
      ((n * (dt * 1000) / P.HZ : Nat) : Int) := by
  have hM := ulong_mod_pos P
  have hkey : toULong P (n : Int) * ((dt % P.ULONG_MOD * 1000) % P.ULONG_MOD) % P.ULONG_MOD
      = n * (dt * 1000) := by
    rcases Nat.eq_zero_or_pos n with hn | hn
    · subst hn
      simp [toULong]
    · rcases Nat.eq_zero_or_pos dt with hd | hd
      · subst hd
        simp
      · have h1 : dt * 1000 ≤ n * (dt * 1000) := Nat.le_mul_of_pos_left _ hn
        have h2 : n ≤ n * (dt * 1000) := Nat.le_mul_of_pos_right _ (by omega)
        have h3 : dt < P.ULONG_MOD := by omega
        have h4 : toULong P (n : Int) = n := by
          unfold toULong
          rw [Int.emod_eq_of_lt (Int.natCast_nonneg n) (by exact_mod_cast (by omega : n < P.ULONG_MOD))]
          exact Int.toNat_ofNat n
        rw [h4, Nat.mod_eq_of_lt h3, Nat.mod_eq_of_lt (by omega : dt * 1000 < P.ULONG_MOD),
          Nat.mod_eq_of_lt hprod]
  unfold sample_ujoules
  rw [ulong_elapsed, hkey]
  exact toInt32_natCast_of_le _ hfit

theorem exact_ujoules_nat (P : Platform) (n dt : Nat) :
    exact_ujoules P (n : Int) dt = ((n * (dt * 1000) / P.HZ : Nat) : Int) := by
  unfold exact_ujoules
  rw [Int.ofNat_tdiv]
  push_cast
  rw [mul_assoc]

/-- The completion handler on a successful read of a data telegram that
parses: the sample is stamped, its energy added and it is inserted. -/
theorem callback_data (P : Platform) (g : spower2_ctl) (buffer : List Char) (len now : Nat)
    (r : Int × spower2_sample) (hlen : 0 < len) (htag : (peek buffer).toNat = REQUEST_DATA)
    (hparse : parse_spower2_sample buffer zero_sample = some r) :
    spower2_int_in_callback P g 0 len buffer now =
      some ({ g with
              cummulative_energy :=
                (g.cummulative_energy +
                  toUInt64 (sample_ujoules P r.2.m_watt now g.time_last_sample))
                  % 18446744073709551616
              time_last_sample := now
              cbuffer := insert_items_cbuffer_t g.cbuffer
                ⟨r.2.m_volts, r.2.m_ampere, r.2.m_watt, r.2.m_watthour,
                 sample_ujoules P r.2.m_watt now g.time_last_sample, now⟩ }, 1) := by
  unfold spower2_int_in_callback
  simp only [ne_eq, not_true_eq_false, if_false, gt_iff_lt, hlen, htag, and_self, if_true,
    hparse]

/-- The completion handler on a regular arrival stores the exact energy term
and adds it to the counter. -/
theorem callback_regular (P : Platform) (g : spower2_ctl) (a : arrival) (ha : a.regular P)
    (r : Int × spower2_sample) (hparse : parse_spower2_sample a.buffer zero_sample = some r) :
    0 ≤ a.ujoules P ∧
    spower2_int_in_callback P g 0 a.actual_length a.buffer
        ((g.time_last_sample + a.dt) % P.ULONG_MOD) =
      some ({ g with
              cummulative_energy :=
                (g.cummulative_energy + (a.ujoules P).toNat) % 18446744073709551616
              time_last_sample := (g.time_last_sample + a.dt) % P.ULONG_MOD
              cbuffer := insert_items_cbuffer_t g.cbuffer
                ⟨r.2.m_volts, r.2.m_ampere, r.2.m_watt, r.2.m_watthour, a.ujoules P,
                 (g.time_last_sample + a.dt) % P.ULONG_MOD⟩ }, 1) := by
  obtain ⟨hlen, htag, _, hpow, hprod, hfit⟩ := ha
  have hpw : a.power = r.2.m_watt := by simp [arrival.power, hparse]
  obtain ⟨n, hn⟩ := Int.eq_ofNat_of_zero_le hpow
  have hprodN : n * (a.dt * 1000) < P.ULONG_MOD := by
    rw [hn] at hprod
    exact_mod_cast hprod
  have huj : a.ujoules P = ((n * (a.dt * 1000) / P.HZ : Nat) : Int) := by
    unfold arrival.ujoules
    rw [hn, exact_ujoules_nat]
  have hfitN : n * (a.dt * 1000) / P.HZ ≤ 2147483647 := by
    rw [huj] at hfit
    unfold INT_MAX at hfit
    exact_mod_cast hfit
  have hs := sample_ujoules_nat P n a.dt g.time_last_sample hprodN hfitN
  refine ⟨by rw [huj]; exact Int.natCast_nonneg _, ?_⟩
  rw [callback_data P g a.buffer a.actual_length _ r hlen htag hparse, ← hpw, hn, hs, huj,
    toUInt64_natCast_of_le _ hfitN, Int.toNat_ofNat]

theorem ujoules_nonneg (P : Platform) (a : arrival) (ha : a.regular P) : 0 ≤ a.ujoules P := by
  obtain ⟨n, hn⟩ := Int.eq_ofNat_of_zero_le ha.2.2.2.1
  unfold arrival.ujoules
  rw [hn, exact_ujoules_nat]
  exact Int.natCast_nonneg _

theorem sum_ujoules_nonneg (P : Platform) (evs : List arrival) (h : ∀ a ∈ evs, a.regular P) :
    0 ≤ (evs.map (arrival.ujoules P)).sum := by
  induction evs with
  | nil => simp
  | cons a rest ih =>
    have h1 := ujoules_nonneg P a (h a (List.mem_cons_self a rest))
    have h2 := ih (fun b hb => h b (List.mem_cons_of_mem a hb))
    simp only [List.map_cons, List.sum_cons]
    omega

/-- A run of the handler over regular arrivals: the counter grows by the sum
of the exact terms and the history receives the expected samples. -/
theorem deliver_regular (P : Platform) (evs : List arrival) :
    ∀ g : spower2_ctl, (∀ a ∈ evs, a.regular P) →
      (g.cummulative_energy : Int) + (evs.map (arrival.ujoules P)).sum < 18446744073709551616 →
      ∃ g1 : spower2_ctl, deliver P g evs = some g1 ∧
        (g1.cummulative_energy : Int) =
          (g.cummulative_energy : Int) + (evs.map (arrival.ujoules P)).sum ∧
        g1.cbuffer = (recorded P g.time_last_sample evs).foldl insert_items_cbuffer_t g.cbuffer ∧
        (recorded P g.time_last_sample evs).map (fun s => s.m_ujoules)
          = evs.map (arrival.ujoules P) := by
  induction evs with
  | nil =>
    intro g _ _
    exact ⟨g, rfl, by simp, rfl, rfl⟩
  | cons a rest ih =>
    intro g hreg htot
    have ha := hreg a (List.mem_cons_self a rest)
    have hrest : ∀ b ∈ rest, b.regular P := fun b hb => hreg b (List.mem_cons_of_mem a hb)
    obtain ⟨r, hr⟩ := Option.isSome_iff_exists.mp ha.2.2.1
    obtain ⟨hu, hstep⟩ := callback_regular P g a ha r hr
    have hsum := sum_ujoules_nonneg P rest hrest
    simp only [List.map_cons, List.sum_cons] at htot
    have hnat : ((a.ujoules P).toNat : Int) = a.ujoules P := Int.toNat_of_nonneg hu
    have hmod : (g.cummulative_energy + (a.ujoules P).toNat) % 18446744073709551616
        = g.cummulative_energy + (a.ujoules P).toNat := by
      apply Nat.mod_eq_of_lt
      omega
    rw [hmod] at hstep
    obtain ⟨g2, he2, ht2, hc2, hstep2⟩ : ∃ g2 : spower2_ctl,
        g2.cummulative_energy = g.cummulative_energy + (a.ujoules P).toNat ∧
        g2.time_last_sample = (g.time_last_sample + a.dt) % P.ULONG_MOD ∧
        g2.cbuffer = insert_items_cbuffer_t g.cbuffer
          ⟨r.2.m_volts, r.2.m_ampere, r.2.m_watt, r.2.m_watthour, a.ujoules P,
           (g.time_last_sample + a.dt) % P.ULONG_MOD⟩ ∧
        spower2_int_in_callback P g 0 a.actual_length a.buffer
          ((g.time_last_sample + a.dt) % P.ULONG_MOD) = some (g2, 1) :=
      ⟨_, rfl, rfl, rfl, hstep⟩
    have hlt : (g2.cummulative_energy : Int) + (rest.map (arrival.ujoules P)).sum
        < 18446744073709551616 := by
      rw [he2]
      push_cast
      omega
    obtain ⟨g1, hd, he, hc, hm⟩ := ih g2 hrest hlt
    refine ⟨g1, ?_, ?_, ?_, ?_⟩
    · simp only [deliver, hstep2]
      exact hd
    · rw [he, he2]
      simp only [List.map_cons, List.sum_cons]
      push_cast
      omega
    · rw [hc, ht2, hc2]
      simp only [recorded, hr, List.foldl_cons]
    · rw [ht2] at hm
      simp only [recorded, hr, List.map_cons, hm]

/-- C6 (amended): spower2_get_energy_count returns 0 right after
spower2_reset_energy_count, and for every sequence of N >= 0 data telegrams
handled by the completion handler after the reset, the i-th carrying a
non-negative power p_i mW and arriving dt_i ticks after the previous sample,
such that p_i * dt_i * 1000 fits in unsigned long, each term
p_i * dt_i * 1000 / HZ (truncated) fits in int and the total stays below
2^64, spower2_get_energy_count returns the sum of the terms and every sample
inserted into the history carries its own term in m_ujoules. -/
theorem energy_count_is_sum (P : Platform) (g : spower2_ctl) (evs : List arrival)
    (hreg : ∀ a ∈ evs, a.regular P)
    (htot : (evs.map (arrival.ujoules P)).sum < 18446744073709551616) :
    spower2_get_energy_count (spower2_reset_energy_count g) = 0 ∧
    ∃ g1 : spower2_ctl, deliver P (spower2_reset_energy_count g) evs = some g1 ∧
      (spower2_get_energy_count g1 : Int) = (evs.map (arrival.ujoules P)).sum ∧
      g1.cbuffer = (recorded P g.time_last_sample evs).foldl insert_items_cbuffer_t g.cbuffer ∧
      (recorded P g.time_last_sample evs).map (fun s => s.m_ujoules)
        = evs.map (arrival.ujoules P) := by
  refine ⟨rfl, ?_⟩
  obtain ⟨g1, hd, he, hc, hm⟩ := deliver_regular P evs (spower2_reset_energy_count g) hreg (by
    show ((0 : Nat) : Int) + _ < _
    simpa using htot)
  refine ⟨g1, hd, ?_, hc, hm⟩
  rw [spower2_get_energy_count, he]
  show ((0 : Nat) : Int) + _ = _
  simp

/-- Witness of C6: two telegrams of 5000 mW and 2019 mW, 100 and 25 ticks
apart, on a 64-bit kernel with HZ = 250. -/
theorem energy_count_is_sum_witness :
    (∀ a ∈ [(⟨scenario_telegram_33, 64, 100⟩ : arrival), ⟨sample_telegram, 64, 25⟩],
      a.regular kernel64_hz250) ∧
    ∃ g1 : spower2_ctl,
      deliver kernel64_hz250 (spower2_reset_energy_count (started_session kernel64_hz250 1000))
        [⟨scenario_telegram_33, 64, 100⟩, ⟨sample_telegram, 64, 25⟩] = some g1 ∧
      (spower2_get_energy_count g1 : Int) = 2000000 + 201900 :=
  ⟨by decide,
   (energy_count_is_sum kernel64_hz250 (started_session kernel64_hz250 1000)
      [⟨scenario_telegram_33, 64, 100⟩, ⟨sample_telegram, 64, 25⟩] (by decide) (by decide)).2.imp
      (fun _ h => ⟨h.1, h.2.1.trans (by decide)⟩)⟩

/-- Counterexample to C6 as stated: on a 64-bit kernel with HZ = 1000 a
telegram of 5000 mW arriving 1000000 ticks after the previous sample has the
term 5000000000, but the sample stores 705032704 and the counter reads
705032704. -/
theorem energy_count_truncated :
    (⟨scenario_telegram_33, 64, 1000000⟩ : arrival).power = 5000 ∧
    (⟨scenario_telegram_33, 64, 1000000⟩ : arrival).ujoules kernel64_hz1000 = 5000000000 ∧
    (deliver kernel64_hz1000 (spower2_reset_energy_count (started_session kernel64_hz1000 0))
        [⟨scenario_telegram_33, 64, 1000000⟩]).map
        (fun g => (spower2_get_energy_count g, g.cbuffer.items.map (fun s => s.m_ujoules)))
      = some (705032704, [705032704]) := by
  decide

/-! ## The scenario of three telegrams (C7) -/

theorem get_sample_of_three (g : spower2_ctl) (n : Nat) (s1 s2 s3 : spower2_sample)
    (hc : g.cbuffer = ⟨[s1, s2, s3], n⟩) :
    spower2_get_sample g 0 =
      (3, ⟨Int.tdiv (toInt32 (toInt32 (toInt32 (0 + s1.m_volts) + s2.m_volts) + s3.m_volts)) 3,
           Int.tdiv (toInt32 (toInt32 (toInt32 (0 + s1.m_ampere) + s2.m_ampere) + s3.m_ampere)) 3,
           Int.tdiv (toInt32 (toInt32 (toInt32 (0 + s1.m_watt) + s2.m_watt) + s3.m_watt)) 3,
           Int.tdiv (toInt32 (toInt32 (toInt32 (0 + s1.m_watthour) + s2.m_watthour)
             + s3.m_watthour)) 3,
           toInt32 (toInt32 (toInt32 (0 + s1.m_ujoules) + s2.m_ujoules) + s3.m_ujoules), 0⟩) := by
  have h3 : toInt32 (toInt32 (toInt32 (0 + 1) + 1) + 1) = 3 := by decide
  simp only [spower2_get_sample, get_summary_samples, hc, summary_loop, ge_iff_le, Nat.zero_le,
    if_true, h3]
  simp

theorem insert_three (s1 s2 s3 : spower2_sample) :
    insert_items_cbuffer_t (insert_items_cbuffer_t (insert_items_cbuffer_t
      (create_cbuffer_t CBUFFER_CAPACITY) s1) s2) s3 = ⟨[s1, s2, s3], CBUFFER_CAPACITY⟩ := by
  simp [insert_items_cbuffer_t, create_cbuffer_t, CBUFFER_CAPACITY]

theorem started_session_fields (P : Platform) (t0 : Nat) :
    (started_session P t0).cbuffer = create_cbuffer_t CBUFFER_CAPACITY ∧
    (started_session P t0).cummulative_energy = 0 ∧
    (started_session P t0).started = 1 := by
  simp [started_session, spower2_start_measurements, spower2_probe, spower2_register_driver]

theorem parse_scenario_telegram_33 :
    parse_spower2_sample scenario_telegram_33 zero_sample =
      some (0, ⟨5000, 1000, 5000, 0, 0, 0⟩) := by
  decide

theorem parse_scenario_telegram :
    parse_spower2_sample scenario_telegram zero_sample = some (1, ⟨-1, -1, -1, -1, 0, 0⟩) := by
  decide

theorem ulong_mod_ge (P : Platform) : 4294967296 ≤ P.ULONG_MOD := by
  rcases P.long_width with h | h
  · simp [Platform.ULONG_MOD, h]
  · simp [Platform.ULONG_MOD, h]

theorem scenario_arrival_regular (P : Platform) (dt : Nat) (hdt : dt ≤ 100) :
    (⟨scenario_telegram_33, 64, dt⟩ : arrival).regular P := by
  have hpow : (⟨scenario_telegram_33, 64, dt⟩ : arrival).power = ((5000 : Nat) : Int) := by
    simp [arrival.power, parse_scenario_telegram_33]
  have hM := ulong_mod_ge P
  refine ⟨?_, ?_, by simp [parse_scenario_telegram_33], ?_, ?_, ?_⟩
  · show 0 < 64
    decide
  · show (peek scenario_telegram_33).toNat = REQUEST_DATA
    decide
  · rw [hpow]
    exact Int.natCast_nonneg _
  · rw [hpow]
    have : (5000 : Int) * ((dt : Int) * 1000) < 4294967296 := by omega
    have hM2 : (4294967296 : Int) ≤ (P.ULONG_MOD : Int) := by exact_mod_cast hM
    push_cast
    omega
  · unfold arrival.ujoules
    rw [hpow, exact_ujoules_nat]
    unfold INT_MAX
    have h1 : 5000 * (dt * 1000) / P.HZ ≤ 5000 * (dt * 1000) := Nat.div_le_self _ _
    have h2 : ((5000 * (dt * 1000) / P.HZ : Nat) : Int) ≤ ((5000 * (dt * 1000) : Nat) : Int) := by
      exact_mod_cast h1
    push_cast at h2 ⊢
    omega

theorem callback_short_telegram (P : Platform) (g : spower2_ctl) (now : Nat) :
    ∃ (g2 : spower2_ctl) (u : Int),
      spower2_int_in_callback P g 0 64 scenario_telegram now = some (g2, 1) ∧
      g2.cbuffer = insert_items_cbuffer_t g.cbuffer ⟨-1, -1, -1, -1, u, now⟩ ∧
      g2.time_last_sample = now :=
  ⟨_, _, callback_data P g scenario_telegram 64 now (1, ⟨-1, -1, -1, -1, 0, 0⟩) (by decide)
    (by decide) parse_scenario_telegram, rfl, rfl⟩

/-- C7 (amended): with a device attached and spower2_start_measurements having
succeeded at tick t0, after the completion handler receives three consecutive
successful reads, the first at most 100 ticks after the start and the next
ones 100 ticks apart, on a kernel with HZ <= 500000000: if each read carries
the telegram in the 33-character layout of the device,
"7 5.000V  1.000 A 5.000W  0.000Wh", spower2_get_sample(0) returns count 3
with m_volts = 5000, m_ampere = 1000 and m_watt = 5000, and
spower2_get_energy_count() > 0; if each read carries the 31-character
telegram "7 5.000V 1.000 A 5.000W 0.000Wh" as stated, the three samples are
recorded as malformed: spower2_get_sample(0) returns count 3 with
m_volts = m_ampere = m_watt = -1. -/
theorem scenario_three_telegrams (P : Platform) (t0 d : Nat) (hHZ : P.HZ ≤ 500000000)
    (hd : d ≤ 100) :
    (spower2_start_measurements P (spower2_probe (spower2_register_driver P 0) 1) t0 0).1 = 0 ∧
    (∃ g3 : spower2_ctl,
      deliver P (started_session P t0)
        [⟨scenario_telegram_33, 64, d⟩, ⟨scenario_telegram_33, 64, 100⟩,
         ⟨scenario_telegram_33, 64, 100⟩] = some g3 ∧
      (spower2_get_sample g3 0).1 = 3 ∧ (spower2_get_sample g3 0).2.m_volts = 5000 ∧
      (spower2_get_sample g3 0).2.m_ampere = 1000 ∧ (spower2_get_sample g3 0).2.m_watt = 5000 ∧
      0 < spower2_get_energy_count g3) ∧
    (∃ g3 : spower2_ctl,
      deliver P (started_session P t0)
        [⟨scenario_telegram, 64, d⟩, ⟨scenario_telegram, 64, 100⟩,
         ⟨scenario_telegram, 64, 100⟩] = some g3 ∧
      (spower2_get_sample g3 0).1 = 3 ∧ (spower2_get_sample g3 0).2.m_volts = -1 ∧
      (spower2_get_sample g3 0).2.m_ampere = -1 ∧ (spower2_get_sample g3 0).2.m_watt = -1) := by
  obtain ⟨hcb, hen, _⟩ := started_session_fields P t0
  refine ⟨?_, ?_, ?_⟩
  · simp [spower2_start_measurements, spower2_probe, spower2_register_driver]
  · have hreg : ∀ a ∈ [(⟨scenario_telegram_33, 64, d⟩ : arrival),
        ⟨scenario_telegram_33, 64, 100⟩, ⟨scenario_telegram_33, 64, 100⟩], a.regular P := by
      intro a ha
      simp only [List.mem_cons, List.mem_singleton, List.not_mem_nil, or_false] at ha
      rcases ha with rfl | rfl | rfl
      · exact scenario_arrival_regular P d hd
      · exact scenario_arrival_regular P 100 (le_refl _)
      · exact scenario_arrival_regular P 100 (le_refl _)
    have h1 := ujoules_nonneg P _ (scenario_arrival_regular P d hd)
    have h2 : (1 : Int) ≤ (⟨scenario_telegram_33, 64, 100⟩ : arrival).ujoules P := by
      have hpow : (⟨scenario_telegram_33, 64, 100⟩ : arrival).power = ((5000 : Nat) : Int) := by
        simp [arrival.power, parse_scenario_telegram_33]
      unfold arrival.ujoules
      rw [hpow, exact_ujoules_nat]
      have : 1 ≤ 5000 * (100 * 1000) / P.HZ :=
        (Nat.one_le_div_iff P.HZ_pos).mpr (by omega)
      exact_mod_cast this
    have h3 : (⟨scenario_telegram_33, 64, 100⟩ : arrival).ujoules P ≤ INT_MAX :=
      (scenario_arrival_regular P 100 (le_refl _)).2.2.2.2.2
    have h4 : (⟨scenario_telegram_33, 64, d⟩ : arrival).ujoules P ≤ INT_MAX :=
      (scenario_arrival_regular P d hd).2.2.2.2.2
    unfold INT_MAX at h3 h4
    obtain ⟨g3, hdel, he, hc, _⟩ := deliver_regular P _ (started_session P t0) hreg (by
      rw [hen]
      simp only [List.map_cons, List.map_nil, List.sum_cons, List.sum_nil]
      push_cast
      omega)
    refine ⟨g3, hdel, ?_⟩
    rw [hcb] at hc
    simp only [recorded, parse_scenario_telegram_33, List.foldl_cons, List.foldl_nil,
      insert_three] at hc
    rw [get_sample_of_three g3 _ _ _ _ hc]
    refine ⟨rfl, ?_, ?_, ?_, ?_⟩
    · show Int.tdiv (toInt32 (toInt32 (toInt32 (0 + 5000) + 5000) + 5000)) 3 = 5000
      decide
    · show Int.tdiv (toInt32 (toInt32 (toInt32 (0 + 1000) + 1000) + 1000)) 3 = 1000
      decide
    · show Int.tdiv (toInt32 (toInt32 (toInt32 (0 + 5000) + 5000) + 5000)) 3 = 5000
      decide
    rw [hen] at he
    simp only [List.map_cons, List.map_nil, List.sum_cons, List.sum_nil] at he
    have : (0 : Int) < (spower2_get_energy_count g3 : Int) := by
      rw [spower2_get_energy_count, he]
      push_cast
      omega
    exact_mod_cast this
  · obtain ⟨g1, u1, hs1, hc1, ht1⟩ := callback_short_telegram P (started_session P t0)
      (((started_session P t0).time_last_sample + d) % P.ULONG_MOD)
    obtain ⟨g2, u2, hs2, hc2, ht2⟩ := callback_short_telegram P g1
      ((g1.time_last_sample + 100) % P.ULONG_MOD)
    obtain ⟨g3, u3, hs3, hc3, _⟩ := callback_short_telegram P g2
      ((g2.time_last_sample + 100) % P.ULONG_MOD)
    refine ⟨g3, by simp only [deliver, hs1, hs2, hs3], ?_⟩
    rw [hc2, hc1, hcb, insert_three] at hc3
    rw [get_sample_of_three g3 _ _ _ _ hc3]
    have hm : Int.tdiv (toInt32 (toInt32 (toInt32 (0 + -1) + -1) + -1)) 3 = -1 := by decide
    exact ⟨rfl, hm, hm, hm⟩

/-- Witness of C7 on a 64-bit kernel with HZ = 250, started at tick 1000. -/
theorem scenario_three_telegrams_witness :
    kernel64_hz250.HZ ≤ 500000000 ∧ (100 : Nat) ≤ 100 ∧
    ∃ g3 : spower2_ctl,
      deliver kernel64_hz250 (started_session kernel64_hz250 1000)
        [⟨scenario_telegram_33, 64, 100⟩, ⟨scenario_telegram_33, 64, 100⟩,
         ⟨scenario_telegram_33, 64, 100⟩] = some g3 ∧
      (spower2_get_sample g3 0).1 = 3 ∧ (spower2_get_sample g3 0).2.m_volts = 5000 ∧
      (spower2_get_sample g3 0).2.m_ampere = 1000 ∧ (spower2_get_sample g3 0).2.m_watt = 5000 ∧
      0 < spower2_get_energy_count g3 :=
  ⟨by decide, by decide,
   (scenario_three_telegrams kernel64_hz250 1000 100 (by decide) (by decide)).2.1⟩

/-- Counterexample to C7 as stated: the telegram of the scenario has 31
characters, so on a 64-bit kernel with HZ = 250, started at tick 1000, the
three reads yield count 3 with m_volts = m_ampere = m_watt = -1 instead of
5000, 1000, 5000. -/
theorem scenario_as_stated :
    scenario_telegram.length = 31 ∧
    (spower2_start_measurements kernel64_hz250
      (spower2_probe (spower2_register_driver kernel64_hz250 0) 1) 1000 0).1 = 0 ∧
    (deliver kernel64_hz250 (started_session kernel64_hz250 1000)
        [⟨scenario_telegram, 64, 100⟩, ⟨scenario_telegram, 64, 100⟩,
         ⟨scenario_telegram, 64, 100⟩]).map (fun g => spower2_get_sample g 0)
      = some (3, ⟨-1, -1, -1, -1, -1924146550, 0⟩) := by
  decide

/-! ## Malformed telegrams and the energy counter (C8, C9) -/

/-- C8 (the code at the failing input): on a 64-bit kernel with HZ = 250, in
a session started at tick 1000 with the energy counter at 0, a successfully
received data telegram of 24 characters arriving one tick later is recorded
as a sample with m_volts = m_ampere = m_watt = m_watthour = -1 and the history
grows by one, but the sentinel power -1 is integrated: the sample gets
m_ujoules = 790273978 and the energy counter goes from 0 to 790273978. -/
theorem short_telegram_changes_energy :
    strlen short_telegram < 33 ∧ (peek short_telegram).toNat = REQUEST_DATA ∧
    (started_session kernel64_hz250 1000).started = 1 ∧
    (started_session kernel64_hz250 1000).cummulative_energy = 0 ∧
    (started_session kernel64_hz250 1000).cbuffer.items = [] ∧
    (spower2_int_in_callback kernel64_hz250 (started_session kernel64_hz250 1000) 0 64
        short_telegram 1001).map
        (fun r => (r.1.cbuffer.items, r.1.cummulative_energy, r.2))
      = some ([⟨-1, -1, -1, -1, 790273978, 1001⟩], 790273978, 1) := by
  decide

/-- C9 (the code at the failing input): on a 64-bit kernel with HZ = 100, in a
session started at tick 1000, a telegram of 5000 mW arriving 4000 ticks after
the start brings the energy counter to 200000000; a data telegram of 24
characters arriving one tick later gets m_ujoules = -171798702 from the
sentinel power -1, and the counter drops to 28201298. -/
theorem energy_count_decreases :
    (deliver kernel64_hz100 (started_session kernel64_hz100 1000)
        [⟨scenario_telegram_33, 64, 4000⟩]).map spower2_get_energy_count = some 200000000 ∧
    (deliver kernel64_hz100 (started_session kernel64_hz100 1000)
        [⟨scenario_telegram_33, 64, 4000⟩, ⟨short_telegram, 64, 1⟩]).map
        (fun g => (spower2_get_energy_count g, g.cbuffer.items.map (fun s => s.m_ujoules)))
      = some (28201298, [200000000, -171798702]) := by
  decide

/-! ## Capacity of the history (C10) -/

/-- Contents of a history of capacity 10 after a sequence of insertions into
the empty history: the last 10 samples of the sequence. -/
theorem foldl_insert_items (ss : List spower2_sample) :
    ss.foldl insert_items_cbuffer_t (create_cbuffer_t CBUFFER_CAPACITY) =
      ⟨ss.drop (ss.length - CBUFFER_CAPACITY), CBUFFER_CAPACITY⟩ := by
  induction ss using List.reverseRecOn with
  | nil => rfl
  | append_singleton l a ih =>
    rw [List.foldl_append, ih]
    simp only [List.foldl_cons, List.foldl_nil, insert_items_cbuffer_t, List.length_drop,
      List.length_append, List.length_singleton, CBUFFER_CAPACITY]
    by_cases h : l.length < 10
    · have h1 : l.length - (l.length - 10) < 10 := by omega
      rw [if_pos h1]
      have h2 : l.length - 10 = 0 := by omega
      have h3 : l.length + 1 - 10 = 0 := by omega
      simp [h2, h3]
    · have h1 : ¬ l.length - (l.length - 10) < 10 := by omega
      rw [if_neg h1, List.drop_drop]
      have h2 : l.length + 1 - 10 ≤ l.length := by omega
      rw [List.drop_append_of_le_length h2]
      have h3 : l.length - 10 + 1 = l.length + 1 - 10 := by omega
      rw [h3]

theorem get_summary_samples_count (cb : cbuffer_t) (T : Nat)
    (hlen : cb.items.length ≤ CBUFFER_CAPACITY) :
    (get_summary_samples cb T).1 = ((selected cb T).length : Int) := by
  have hsel : (selected cb T).length ≤ 10 := le_trans (selected_length_le cb T) hlen
  have hcount : toInt32 (0 + ((selected cb T).length : Int)) = ((selected cb T).length : Int) := by
    unfold toInt32
    omega
  unfold selected at hcount
  unfold get_summary_samples
  rw [summary_loop_eq]
  by_cases h : cb.items.filter (fun s => decide (T ≤ s.timestamp)) = []
  · simp [h, selected]
  · have hpos : (0 : Int) < ((cb.items.filter (fun s => decide (T ≤ s.timestamp))).length : Int) := by
      exact_mod_cast List.length_pos.mpr h
    simp only [h, if_false, hcount, selected]
    simp only [gt_iff_lt, hpos, if_true]

theorem callback_history (P : Platform) (g : spower2_ctl) (status : Int) (len : Nat)
    (buffer : List Char) (now : Nat) (r : spower2_ctl × Nat)
    (h : spower2_int_in_callback P g status len buffer now = some r) :
    r.1.cbuffer = g.cbuffer ∨
    ∃ s : spower2_sample, r.1.cbuffer = insert_items_cbuffer_t g.cbuffer s := by
  unfold spower2_int_in_callback at h
  split at h
  · split at h
    · left
      rw [← Option.some.inj h]
    · left
      rw [← Option.some.inj h]
  · split at h
    · split at h
      · exact absurd h (by simp)
      · right
        rw [← Option.some.inj h]
        exact ⟨_, rfl⟩
    · left
      rw [← Option.some.inj h]

/-- C10: for every sequence of samples inserted into the history created
with capacity CBUFFER_CAPACITY = 10, spower2_get_sample never reports a count
greater than 10 and at most 10 samples are stored; after inserting 11 samples
into the empty history the stored samples are exactly the 2nd to 11th in
arrival order; and the completion handler changes the history only by
inserting one more sample. -/
theorem history_capacity (ss : List spower2_sample) (g : spower2_ctl) (T : Nat)
    (hg : g.cbuffer = ss.foldl insert_items_cbuffer_t (create_cbuffer_t CBUFFER_CAPACITY)) :
    (spower2_get_sample g T).1 ≤ 10 ∧ g.cbuffer.items.length ≤ 10 ∧
    (ss.length = 11 → g.cbuffer.items = ss.drop 1) ∧
    (∀ (P : Platform) (status : Int) (len : Nat) (buffer : List Char) (now : Nat)
        (r : spower2_ctl × Nat),
      spower2_int_in_callback P g status len buffer now = some r →
      r.1.cbuffer = g.cbuffer ∨
      ∃ s : spower2_sample, r.1.cbuffer =
        (ss ++ [s]).foldl insert_items_cbuffer_t (create_cbuffer_t CBUFFER_CAPACITY)) := by
  have hitems : g.cbuffer.items = ss.drop (ss.length - 10) := by
    rw [hg, foldl_insert_items]
    rfl
  have hlen : g.cbuffer.items.length ≤ 10 := by
    rw [hitems, List.length_drop]
    omega
  refine ⟨?_, hlen, ?_, ?_⟩
  · unfold spower2_get_sample
    rw [get_summary_samples_count g.cbuffer T hlen]
    have := selected_length_le g.cbuffer T
    omega
  · intro h11
    rw [hitems, h11]
  · intro P status len buffer now r hr
    rcases callback_history P g status len buffer now r hr with h | ⟨s, h⟩
    · exact Or.inl h
    · refine Or.inr ⟨s, ?_⟩
      rw [h, hg, List.foldl_append]
      rfl

/-- Witness of C10: eleven samples inserted into the empty history. -/
theorem history_capacity_witness :
    (eleven_samples.foldl insert_items_cbuffer_t (create_cbuffer_t CBUFFER_CAPACITY)).items
      = eleven_samples.drop 1 ∧
    eleven_samples.length = 11 :=
  ⟨(history_capacity eleven_samples
      ⟨none, eleven_samples.foldl insert_items_cbuffer_t (create_cbuffer_t CBUFFER_CAPACITY),
       0, 0, 0, 0, 0⟩ 0 rfl).2.2.1 (by decide), by decide⟩

/-! ## Session life cycle (C11 to C13) -/

/-- C11 (amended): spower2_start_measurements returns -ENODEV whenever the
session is not idle (started != 0) or no device is attached, and otherwise
returns what the read submission returns, so it returns -ENODEV exactly when
the session is not idle, no device is attached, or the submission itself
fails with -ENODEV; on every failure the whole session state, in particular
started, the cumulative energy counter and the energy baseline, keeps its
previous value; on success it returns 0 with started = 1, cumulative energy
= 0 and the energy baseline equal to the current tick (as an unsigned long),
the attached device, the history and the timer period being unchanged. -/
theorem spower2_start_measurements_outcomes (P : Platform) (g : spower2_ctl) (jiffies : Nat)
    (submit : Int) :
    ((spower2_start_measurements P g jiffies submit).1 = -ENODEV ↔
      (g.started ≠ 0 ∨ g.dev = none ∨ submit = -ENODEV)) ∧
    (g.started ≠ 0 ∨ g.dev = none →
      spower2_start_measurements P g jiffies submit = (-ENODEV, g)) ∧
    (g.started = 0 → g.dev ≠ none →
      (spower2_start_measurements P g jiffies submit).1 = submit) ∧
    ((spower2_start_measurements P g jiffies submit).1 ≠ 0 →
      (spower2_start_measurements P g jiffies submit).2 = g) ∧
    ((spower2_start_measurements P g jiffies submit).1 = 0 →
      (spower2_start_measurements P g jiffies submit).2.started = 1 ∧
      (spower2_start_measurements P g jiffies submit).2.cummulative_energy = 0 ∧
      (spower2_start_measurements P g jiffies submit).2.time_last_sample
        = jiffies % P.ULONG_MOD ∧
      (jiffies < P.ULONG_MOD →
        (spower2_start_measurements P g jiffies submit).2.time_last_sample = jiffies) ∧
      (spower2_start_measurements P g jiffies submit).2.dev = g.dev ∧
      (spower2_start_measurements P g jiffies submit).2.cbuffer = g.cbuffer ∧
      (spower2_start_measurements P g jiffies submit).2.timer_period = g.timer_period) := by
  have hbase : ((jiffies + 1) % P.ULONG_MOD + P.ULONG_MOD - 1) % P.ULONG_MOD
      = jiffies % P.ULONG_MOD := by
    rcases P.long_width with h | h
    · simp only [Platform.ULONG_MOD, h, Nat.reducePow]
      omega
    · simp only [Platform.ULONG_MOD, h, Nat.reducePow]
      omega
  unfold spower2_start_measurements
  by_cases hready : g.started ≠ 0 ∨ g.dev = none
  · rw [if_pos hready]
    refine ⟨?_, ?_, ?_, ?_, ?_⟩
    · constructor
      · intro _
        rcases hready with h | h
        · exact Or.inl h
        · exact Or.inr (Or.inl h)
      · intro _
        rfl
    · intro _
      rfl
    · intro h0 hd
      rcases hready with h | h
      · exact absurd h0 h
      · exact absurd h hd
    · intro _
      rfl
    · intro h
      have hne : (-ENODEV : Int) ≠ 0 := by decide
      exact absurd h hne
  · rw [if_neg hready]
    have hs : g.started = 0 := by
      by_contra h
      exact hready (Or.inl h)
    have hd : g.dev ≠ none := fun h => hready (Or.inr h)
    by_cases hsub : submit ≠ 0
    · rw [if_pos hsub]
      refine ⟨?_, ?_, ?_, ?_, ?_⟩
      · constructor
        · intro h
          exact Or.inr (Or.inr h)
        · intro h
          rcases h with h | h | h
          · exact absurd hs h
          · exact absurd h hd
          · exact h
      · intro h
        exact absurd h hready
      · intro _ _
        rfl
      · intro _
        rfl
      · intro h
        exact absurd h hsub
    · rw [if_neg hsub]
      have hz : submit = 0 := by
        by_contra h
        exact hsub h
      refine ⟨?_, ?_, ?_, ?_, ?_⟩
      · constructor
        · intro h
          have hne : (0 : Int) ≠ -ENODEV := by decide
          exact absurd h hne
        · intro h
          rcases h with h | h | h
          · exact absurd hs h
          · exact absurd h hd
          · rw [hz] at h
            have hne : (0 : Int) ≠ -ENODEV := by decide
            exact absurd h hne
      · intro h
        exact absurd h hready
      · intro _ _
        exact hz.symm
      · intro h
        exact absurd rfl h
      · intro _
        refine ⟨rfl, rfl, hbase, ?_, rfl, rfl, rfl⟩
        intro hj
        show ((jiffies + 1) % P.ULONG_MOD + P.ULONG_MOD - 1) % P.ULONG_MOD = jiffies
        rw [hbase, Nat.mod_eq_of_lt hj]

/-- Witness of C11: start on the attached idle session at tick 1000. -/
theorem spower2_start_measurements_outcomes_witness :
    (spower2_start_measurements kernel64_hz250 (attached_idle kernel64_hz250) 1000 0).1 = 0 ∧
    (spower2_start_measurements kernel64_hz250 (attached_idle kernel64_hz250) 1000 0).2.started
      = 1 ∧
    (spower2_start_measurements kernel64_hz250 (attached_idle kernel64_hz250) 1000
      0).2.time_last_sample = 1000 :=
  ⟨by decide,
   ((spower2_start_measurements_outcomes kernel64_hz250 (attached_idle kernel64_hz250) 1000
      0).2.2.2.2 (by decide)).1,
   ((spower2_start_measurements_outcomes kernel64_hz250 (attached_idle kernel64_hz250) 1000
      0).2.2.2.2 (by decide)).2.2.2.1 (by decide)⟩

/-- Counterexample to C11 as stated: with an idle session and a device
attached, a read submission that fails with -ENODEV makes
spower2_start_measurements return -ENODEV. -/
theorem spower2_start_measurements_transport_enodev :
    (attached_idle kernel64_hz250).started = 0 ∧
    (attached_idle kernel64_hz250).dev = some 1 ∧
    spower2_start_measurements kernel64_hz250 (attached_idle kernel64_hz250) 1000 (-19)
      = (-ENODEV, attached_idle kernel64_hz250) := by
  decide

theorem get_sample_of_empty (g : spower2_ctl) (T : Nat) (h : g.cbuffer.items = []) :
    spower2_get_sample g T = (0, zero_sample) := by
  simp [spower2_get_sample, get_summary_samples, h, summary_loop, zero_sample]

theorem stop_of_running (g : spower2_ctl) (hs : g.started = 1) (hd : g.dev ≠ none) :
    spower2_stop_measurements g =
      { g with
        cbuffer := clear_cbuffer_t g.cbuffer
        started := 0 } := by
  have hguard : ¬ (g.started ≠ 1 ∨ g.dev = none) := by
    rintro (h | h)
    · exact h hs
    · exact hd h
  simp only [spower2_stop_measurements, stop_enter, if_neg hguard, stop_leave]

theorem stop_of_other (g : spower2_ctl) (h : g.started ≠ 1 ∨ g.dev = none) :
    spower2_stop_measurements g = g := by
  simp only [spower2_stop_measurements, stop_enter, if_pos h]

/-- C12 (amended): for every session state that is Running with a device
attached (started = 1, device handle set), after spower2_stop_measurements
returns, spower2_get_sample returns count 0 for every timestamp (the history
is cleared) and the session is idle (started = 0), the other fields being
unchanged; in every other state (started != 1, or no device attached)
spower2_stop_measurements is a no-op that changes no field of the session
state; so stop followed by stop leaves the same state as a single stop. -/
theorem spower2_stop_measurements_effect (g : spower2_ctl) :
    (g.started = 1 → g.dev ≠ none →
      (∀ T : Nat, spower2_get_sample (spower2_stop_measurements g) T = (0, zero_sample)) ∧
      (spower2_stop_measurements g).started = 0 ∧
      (spower2_stop_measurements g).cbuffer.items = [] ∧
      (spower2_stop_measurements g).dev = g.dev ∧
      (spower2_stop_measurements g).timer_period = g.timer_period ∧
      (spower2_stop_measurements g).time_last_sample = g.time_last_sample ∧
      (spower2_stop_measurements g).cummulative_energy = g.cummulative_energy) ∧
    (g.started ≠ 1 ∨ g.dev = none → spower2_stop_measurements g = g) ∧
    spower2_stop_measurements (spower2_stop_measurements g) = spower2_stop_measurements g := by
  refine ⟨?_, stop_of_other g, ?_⟩
  · intro hs hd
    rw [stop_of_running g hs hd]
    refine ⟨fun T => get_sample_of_empty _ T rfl, rfl, rfl, rfl, rfl, rfl, rfl⟩
  · by_cases h : g.started ≠ 1 ∨ g.dev = none
    · rw [stop_of_other g h, stop_of_other g h]
    · have hs : g.started = 1 := by
        by_contra hn
        exact h (Or.inl hn)
      have hd : g.dev ≠ none := fun hn => h (Or.inr hn)
      rw [stop_of_running g hs hd]
      have hne : (0 : Nat) ≠ 1 := by decide
      exact stop_of_other _ (Or.inl hne)

/-- Witness of C12: stopping the running session that holds one sample. -/
theorem spower2_stop_measurements_effect_witness :
    session_with_sample.started = 1 ∧ session_with_sample.dev ≠ none ∧
    session_with_sample.cbuffer.items.length = 1 ∧
    spower2_get_sample (spower2_stop_measurements session_with_sample) 0 = (0, zero_sample) ∧
    (spower2_stop_measurements session_with_sample).started = 0 :=
  ⟨by decide, by decide, by decide,
   ((spower2_stop_measurements_effect session_with_sample).1 (by decide) (by decide)).1 0,
   ((spower2_stop_measurements_effect session_with_sample).1 (by decide) (by decide)).2.1⟩

/-- Counterexample to C12 as stated: the running session that holds one
sample loses its device (spower2_disconnect); spower2_stop_measurements then
changes nothing, the session is not idle afterwards (started = 1) and
spower2_get_sample(0) still returns count 1. -/
theorem spower2_stop_measurements_detached :
    spower2_int_in_callback kernel64_hz250 (started_session kernel64_hz250 1000) 0 64
      scenario_telegram_33 1100 = some (session_with_sample, 1) ∧
    (spower2_disconnect session_with_sample 1).dev = none ∧
    spower2_stop_measurements (spower2_disconnect session_with_sample 1)
      = spower2_disconnect session_with_sample 1 ∧
    (spower2_stop_measurements (spower2_disconnect session_with_sample 1)).started = 1 ∧
    (spower2_get_sample (spower2_stop_measurements (spower2_disconnect session_with_sample 1))
      0).1 = 1 := by
  decide

/-- C13 (amended): for every session state, a detach notification
(spower2_disconnect) for a device clears the attached handle only if it is the
currently attached one (any other device leaves the state unchanged) and
changes no other field: detaching the attached device while a session is in
progress does not stop it, started, the history, the energy counter and the
baseline keep their values, so that with started != 0 spower2_start_measurements
after a new attach fails with -ENODEV; an attach (spower2_probe) only takes
effect when no device is attached. -/
theorem spower2_disconnect_effect (g : spower2_ctl) (dev : Nat) :
    (g.dev = some dev → (spower2_disconnect g dev).dev = none) ∧
    (g.dev ≠ some dev → spower2_disconnect g dev = g) ∧
    ((spower2_disconnect g dev).started = g.started ∧
      (spower2_disconnect g dev).cbuffer = g.cbuffer ∧
      (spower2_disconnect g dev).cummulative_energy = g.cummulative_energy ∧
      (spower2_disconnect g dev).time_last_sample = g.time_last_sample ∧
      (spower2_disconnect g dev).timer_period = g.timer_period) ∧
    (g.started ≠ 0 → ∀ (P : Platform) (dev2 jiffies : Nat) (submit : Int),
      spower2_start_measurements P (spower2_probe (spower2_disconnect g dev) dev2) jiffies submit
        = (-ENODEV, spower2_probe (spower2_disconnect g dev) dev2)) ∧
    (g.dev = none → spower2_probe g dev = { g with dev := some dev }) ∧
    (g.dev ≠ none → spower2_probe g dev = g) := by
  refine ⟨?_, ?_, ?_, ?_, ?_, ?_⟩
  · intro h
    simp [spower2_disconnect, h]
  · intro h
    simp [spower2_disconnect, h]
  · unfold spower2_disconnect
    split
    · exact ⟨rfl, rfl, rfl, rfl, rfl⟩
    · exact ⟨rfl, rfl, rfl, rfl, rfl⟩
  · intro hs P dev2 jiffies submit
    have hst : (spower2_probe (spower2_disconnect g dev) dev2).started ≠ 0 := by
      have h1 : (spower2_probe (spower2_disconnect g dev) dev2).started
          = (spower2_disconnect g dev).started := by
        unfold spower2_probe
        split
        · rfl
        · rfl
      have h2 : (spower2_disconnect g dev).started = g.started := by
        unfold spower2_disconnect
        split
        · rfl
        · rfl
      rw [h1, h2]
      exact hs
    unfold spower2_start_measurements
    rw [if_pos (Or.inl hst)]
  · intro h
    simp [spower2_probe, h]
  · intro h
    simp [spower2_probe, h]

/-- Witness of C13: the running session loses device 1 and gets device 2. -/
theorem spower2_disconnect_effect_witness :
    session_with_sample.dev = some 1 ∧ session_with_sample.started ≠ 0 ∧
    (spower2_disconnect session_with_sample 1).dev = none ∧
    spower2_start_measurements kernel64_hz250
      (spower2_probe (spower2_disconnect session_with_sample 1) 2) 2000 0
      = (-ENODEV, spower2_probe (spower2_disconnect session_with_sample 1) 2) :=
  ⟨by decide, by decide,
   (spower2_disconnect_effect session_with_sample 1).1 (by decide),
   (spower2_disconnect_effect session_with_sample 1).2.2.2.1 (by decide) kernel64_hz250 2 2000 0⟩

/-- Counterexample to C13 as stated: detaching device 1 from the running
session that holds one sample leaves started = 1 and the sample in the
history, and after the attachment of device 2 spower2_start_measurements
fails with -ENODEV. -/
theorem detach_keeps_session_started :
    session_with_sample.dev = some 1 ∧ session_with_sample.started = 1 ∧
    (spower2_disconnect session_with_sample 1).started = 1 ∧
    (spower2_get_sample (spower2_disconnect session_with_sample 1) 0).1 = 1 ∧
    (spower2_probe (spower2_disconnect session_with_sample 1) 2).dev = some 2 ∧
    (spower2_start_measurements kernel64_hz250
      (spower2_probe (spower2_disconnect session_with_sample 1) 2) 2000 0).1 = -ENODEV := by
  decide

/-! ## Configuration of the timer period (C14, C15) -/

theorem set_sampling_period_rejected (P : Platform) (g : spower2_ctl) (ms : Nat)
    (h : ms < 50 ∨ ms > 4000) : spower2_set_sampling_period P g ms = (-EINVAL, g) := by
  simp only [spower2_set_sampling_period, if_pos h]

theorem set_sampling_period_accepted (P : Platform) (g : spower2_ctl) (ms : Nat)
    (h1 : 50 ≤ ms) (h2 : ms ≤ 4000) (hfit : P.HZ * ms < UINT_MOD) :
    spower2_set_sampling_period P g ms = (0, { g with timer_period := P.HZ * ms / 1000 }) := by
  have h : ¬ (ms < 50 ∨ ms > 4000) := by omega
  simp only [spower2_set_sampling_period, if_neg h, Nat.mod_eq_of_lt hfit]

/-- C14: on a kernel whose HZ satisfies HZ*4000 < 2^32, for every unsigned ms,
spower2_set_sampling_period(ms) returns -EINVAL and leaves the timer period
(and the whole state) unchanged if and only if ms < 50 or ms > 4000, so 49
and 4001 are rejected and 50 and 4000 accepted; otherwise it returns 0 and
sets the timer period to (HZ*ms)/1000 ticks, changing no other field. -/
theorem spower2_set_sampling_period_range (P : Platform) (g : spower2_ctl) (ms : Nat)
    (hHZ : P.HZ * 4000 < UINT_MOD) :
    ((spower2_set_sampling_period P g ms).1 = -EINVAL ↔ (ms < 50 ∨ ms > 4000)) ∧
    (ms < 50 ∨ ms > 4000 → spower2_set_sampling_period P g ms = (-EINVAL, g)) ∧
    (50 ≤ ms → ms ≤ 4000 →
      spower2_set_sampling_period P g ms
        = (0, { g with timer_period := P.HZ * ms / 1000 })) ∧
    (spower2_set_sampling_period P g 49).1 = -EINVAL ∧
    (spower2_set_sampling_period P g 4001).1 = -EINVAL ∧
    (spower2_set_sampling_period P g 50).1 = 0 ∧
    (spower2_set_sampling_period P g 4000).1 = 0 := by
  have hfit : ∀ m : Nat, m ≤ 4000 → P.HZ * m < UINT_MOD := fun m hm =>
    lt_of_le_of_lt (Nat.mul_le_mul_left _ hm) hHZ
  refine ⟨?_, set_sampling_period_rejected P g ms, ?_, ?_, ?_, ?_, ?_⟩
  · constructor
    · intro h
      by_contra hn
      have h1 : 50 ≤ ms := by omega
      have h2 : ms ≤ 4000 := by omega
      rw [set_sampling_period_accepted P g ms h1 h2 (hfit ms h2)] at h
      have hne : (0 : Int) ≠ -EINVAL := by decide
      exact hne h
    · intro h
      rw [set_sampling_period_rejected P g ms h]
  · intro h1 h2
    exact set_sampling_period_accepted P g ms h1 h2 (hfit ms h2)
  · rw [set_sampling_period_rejected P g 49 (Or.inl (by decide))]
  · rw [set_sampling_period_rejected P g 4001 (Or.inr (by decide))]
  · rw [set_sampling_period_accepted P g 50 (by decide) (by decide) (hfit 50 (by decide))]
  · rw [set_sampling_period_accepted P g 4000 (by decide) (by decide) (hfit 4000 (by decide))]

/-- Witness of C14: a period of 200 ms on a kernel with HZ = 250 is 50 ticks. -/
theorem spower2_set_sampling_period_range_witness :
    kernel64_hz250.HZ * 4000 < UINT_MOD ∧
    spower2_set_sampling_period kernel64_hz250 (attached_idle kernel64_hz250) 200
      = (0, { attached_idle kernel64_hz250 with timer_period := 50 }) :=
  ⟨by decide,
   (spower2_set_sampling_period_range kernel64_hz250 (attached_idle kernel64_hz250) 200
      (by decide)).2.2.1 (by decide) (by decide)⟩

/-- C15 (amended): for every X in [50, 4000] and every tick frequency HZ > 0
with HZ*X < 2^32 (both conversions are computed in unsigned int),
spower2_get_sampling_period() right after a successful
spower2_set_sampling_period(X) returns 1000*((HZ*X)/1000)/HZ, which is at most
X and equals X whenever X ms is a whole number of ticks (HZ*X is a multiple
of 1000). -/
theorem sampling_period_round_trip (P : Platform) (g : spower2_ctl) (X : Nat)
    (h1 : 50 ≤ X) (h2 : X ≤ 4000) (hfit : P.HZ * X < UINT_MOD) :
    (spower2_set_sampling_period P g X).1 = 0 ∧
    spower2_get_sampling_period P (spower2_set_sampling_period P g X).2
      = 1000 * (P.HZ * X / 1000) / P.HZ ∧
    spower2_get_sampling_period P (spower2_set_sampling_period P g X).2 ≤ X ∧
    (P.HZ * X % 1000 = 0 →
      spower2_get_sampling_period P (spower2_set_sampling_period P g X).2 = X) := by
  have hle : 1000 * (P.HZ * X / 1000) ≤ P.HZ * X := Nat.mul_div_le _ _
  have hget : spower2_get_sampling_period P (spower2_set_sampling_period P g X).2
      = 1000 * (P.HZ * X / 1000) / P.HZ := by
    rw [set_sampling_period_accepted P g X h1 h2 hfit]
    simp only [spower2_get_sampling_period]
    rw [Nat.mod_eq_of_lt (lt_of_le_of_lt hle hfit)]
  refine ⟨?_, hget, ?_, ?_⟩
  · rw [set_sampling_period_accepted P g X h1 h2 hfit]
  · rw [hget]
    calc 1000 * (P.HZ * X / 1000) / P.HZ ≤ P.HZ * X / P.HZ := Nat.div_le_div_right hle
      _ = X := Nat.mul_div_cancel_left X P.HZ_pos
  · intro hdiv
    rw [hget, Nat.mul_div_cancel' (Nat.dvd_of_mod_eq_zero hdiv)]
    exact Nat.mul_div_cancel_left X P.HZ_pos

/-- Witness of C15: 200 ms on a kernel with HZ = 250 reads back as 200 ms. -/
theorem sampling_period_round_trip_witness :
    kernel64_hz250.HZ * 200 < UINT_MOD ∧ kernel64_hz250.HZ * 200 % 1000 = 0 ∧
    spower2_get_sampling_period kernel64_hz250
      (spower2_set_sampling_period kernel64_hz250 (attached_idle kernel64_hz250) 200).2 = 200 :=
  ⟨by decide, by decide,
   (sampling_period_round_trip kernel64_hz250 (attached_idle kernel64_hz250) 200 (by decide)
      (by decide) (by decide)).2.2.2 (by decide)⟩

/-- Counterexample to C15 as stated: with a tick frequency of 2000000 Hz a
period of 4000 ms is a whole number of ticks (8000000), the set succeeds, and
the value read back is 1852 ms. -/
theorem sampling_period_wraps :
    0 < kernel64_hz2000000.HZ ∧ kernel64_hz2000000.HZ * 4000 % 1000 = 0 ∧
    (spower2_set_sampling_period kernel64_hz2000000 (attached_idle kernel64_hz2000000) 4000).1
      = 0 ∧
    (spower2_set_sampling_period kernel64_hz2000000
      (attached_idle kernel64_hz2000000) 4000).2.timer_period = 3705032 ∧
    spower2_get_sampling_period kernel64_hz2000000
      (spower2_set_sampling_period kernel64_hz2000000
        (attached_idle kernel64_hz2000000) 4000).2 = 1852 := by
  decide

/-! ## Completion handler and timer tick (C16, C17) -/

theorem strlen_le_length (str : List Char) : strlen str ≤ str.length := by
  induction str with
  | nil => simp [strlen]
  | cons c cs ih =>
    unfold strlen
    split
    · simp
    · simp only [List.length_cons]; omega

theorem strlen_append_nul (b rest : List Char) :
    strlen (b ++ Char.ofNat 0 :: rest) = strlen b := by
  induction b with
  | nil => simp [strlen]
  | cons c cs ih =>
    by_cases hc : c = Char.ofNat 0
    · simp [strlen, hc]
    · simp [strlen, hc, ih]

theorem peek_append_nul (t rest : List Char) : peek (t ++ Char.ofNat 0 :: rest) = peek t := by
  cases t with
  | nil => rfl
  | cons c cs => rfl

theorem skip_to_number_extend (x : List Char) (s : List Char) :
    ∀ (k : Nat) (t : List Char) (n : Nat), skip_to_number s k = some (t, n) →
      skip_to_number (s ++ x) k = some (t ++ x, n) := by
  induction s with
  | nil =>
    intro k t n h
    simp [skip_to_number] at h
  | cons c cs ih =>
    intro k t n h
    rw [List.cons_append]
    unfold skip_to_number at h ⊢
    split
    · rename_i hc
      rw [if_pos hc] at h
      exact ih _ _ _ h
    · rename_i hc
      rw [if_neg hc] at h
      have := Option.some.inj h
      rw [← (Prod.mk.inj this).1, ← (Prod.mk.inj this).2]
      rfl

theorem skip_spaces_append_nul (t rest : List Char) :
    skip_spaces (t ++ Char.ofNat 0 :: rest) = skip_spaces t ++ Char.ofNat 0 :: rest := by
  induction t with
  | nil =>
    have h : isspace (Char.ofNat 0) = false := by decide
    simp [skip_spaces, h]
  | cons c cs ih =>
    by_cases hc : isspace c = true
    · simp [skip_spaces, hc, ih]
    · simp [skip_spaces, hc]

theorem simple_strtoull_append_nul (rest : List Char) (t : List Char) :
    ∀ acc : Nat, simple_strtoull (t ++ Char.ofNat 0 :: rest) acc =
      ((simple_strtoull t acc).1, (simple_strtoull t acc).2 ++ Char.ofNat 0 :: rest) := by
  induction t with
  | nil =>
    intro acc
    have h : isdigit (Char.ofNat 0) = false := by decide
    simp [simple_strtoull, h]
  | cons c cs ih =>
    intro acc
    by_cases hc : isdigit c = true
    · simp [simple_strtoull, hc, ih]
    · simp [simple_strtoull, hc]

theorem drop_one_append (t x : List Char) (h : t ≠ []) : (t ++ x).drop 1 = t.drop 1 ++ x := by
  cases t with
  | nil => exact absurd rfl h
  | cons c cs => rfl

theorem peek_ne_nul_nonempty (t : List Char) (c : Char) (h : peek t = c)
    (hc : c ≠ Char.ofNat 0) : t ≠ [] := by
  rintro rfl
  exact hc h.symm

theorem simple_strtol_append_nul (t rest : List Char) :
    simple_strtol (t ++ Char.ofNat 0 :: rest) =
      ((simple_strtol t).1, (simple_strtol t).2 ++ Char.ofNat 0 :: rest) := by
  unfold simple_strtol
  rw [peek_append_nul]
  by_cases hm : peek t = '-'
  · have hne : t ≠ [] := peek_ne_nul_nonempty t '-' hm (by decide)
    rw [if_pos hm, if_pos hm, drop_one_append t _ hne, simple_strtoull_append_nul]
  · rw [if_neg hm, if_neg hm, simple_strtoull_append_nul]

theorem scan_d_append_nul (t rest : List Char) :
    scan_d (t ++ Char.ofNat 0 :: rest) =
      (scan_d t).map (fun r => (r.1, r.2 ++ Char.ofNat 0 :: rest)) := by
  unfold scan_d
  rw [peek_append_nul]
  by_cases h0 : peek t = Char.ofNat 0
  · rw [if_pos h0, if_pos h0]
    rfl
  · rw [if_neg h0, if_neg h0]
    simp only [skip_spaces_append_nul, peek_append_nul, simple_strtol_append_nul]
    have hdigit : (if peek (skip_spaces t) = '-'
          then peek ((skip_spaces t ++ Char.ofNat 0 :: rest).drop 1)
          else peek (skip_spaces t)) =
        (if peek (skip_spaces t) = '-' then peek ((skip_spaces t).drop 1)
          else peek (skip_spaces t)) := by
      by_cases hm : peek (skip_spaces t) = '-'
      · have hne : skip_spaces t ≠ [] := peek_ne_nul_nonempty _ '-' hm (by decide)
        rw [if_pos hm, if_pos hm, drop_one_append _ _ hne, peek_append_nul]
      · rw [if_neg hm, if_neg hm]
    rw [hdigit]
    generalize (if peek (skip_spaces t) = '-' then peek ((skip_spaces t).drop 1)
      else peek (skip_spaces t)) = dg
    by_cases hc : (decide (dg = Char.ofNat 0) || !isdigit dg) = true
    · rw [if_pos hc, if_pos hc]
      rfl
    · rw [if_neg hc, if_neg hc]
      rfl

theorem sscanf_append_nul (t rest : List Char) (u d : Int) :
    sscanf_d_dot_d (t ++ Char.ofNat 0 :: rest) u d = sscanf_d_dot_d t u d := by
  unfold sscanf_d_dot_d
  rw [scan_d_append_nul]
  cases h1 : scan_d t with
  | none => rfl
  | some r1 =>
    simp only [Option.map_some']
    rw [peek_append_nul]
    by_cases hdot : peek r1.2 = '.'
    · have hne : r1.2 ≠ [] := peek_ne_nul_nonempty _ '.' hdot (by decide)
      rw [if_pos hdot, if_pos hdot, drop_one_append _ _ hne, scan_d_append_nul]
      cases h2 : scan_d (r1.2.drop 1) with
      | none => rfl
      | some r2 => rfl
    · rw [if_neg hdot, if_neg hdot]

theorem skip_number_append_nul (rest : List Char) (t : List Char) :
    ∀ k : Nat, skip_number (t ++ Char.ofNat 0 :: rest) k = skip_number t k := by
  induction t with
  | nil =>
    intro k
    have h : isdigit (Char.ofNat 0) = false := by decide
    have h2 : (Char.ofNat 0 == '.') = false := by decide
    simp [skip_number, h, h2]
  | cons c cs ih =>
    intro k
    rw [List.cons_append]
    unfold skip_number
    rw [ih]

/-- A field scan that stays inside a string gives the same result when the
string is followed by its NUL and further bytes. -/
theorem spower2_parse_float_extend (s rest : List Char) (r : Int × Nat)
    (h : spower2_parse_float s = some r) :
    spower2_parse_float (s ++ Char.ofNat 0 :: rest) = some r := by
  unfold spower2_parse_float at h ⊢
  cases hs : skip_to_number s 0 with
  | none =>
    rw [hs] at h
    exact absurd h (by simp)
  | some tn =>
    rw [hs] at h
    rw [skip_to_number_extend (Char.ofNat 0 :: rest) s 0 tn.1 tn.2 hs]
    simp only [sscanf_append_nul, peek_append_nul, skip_number_append_nul]
    exact h

theorem advance_extend (s x s1 : List Char) (n : Nat) (h : advance s n = some s1) :
    advance (s ++ x) n = some (s1 ++ x) := by
  unfold advance at h ⊢
  by_cases hn : n ≤ s.length
  · rw [if_pos hn] at h
    rw [if_pos (by simp only [List.length_append]; omega), List.drop_append_of_le_length hn,
      Option.some.inj h]
  · rw [if_neg hn] at h
    exact absurd h (by simp)

/-- A parse that stays inside a string gives the same result when the string
is followed by its NUL and further bytes. -/
theorem parse_spower2_sample_extend (b rest : List Char) (sample : spower2_sample)
    (r : Int × spower2_sample) (h : parse_spower2_sample b sample = some r) :
    parse_spower2_sample (b ++ Char.ofNat 0 :: rest) sample = some r := by
  unfold parse_spower2_sample at h ⊢
  rw [strlen_append_nul]
  by_cases hlen : strlen b < 33
  · rw [if_pos hlen] at h ⊢
    exact h
  · rw [if_neg hlen] at h ⊢
    have hb : 2 ≤ b.length := by
      have := strlen_le_length b
      omega
    rw [List.drop_append_of_le_length hb]
    dsimp only at h ⊢
    cases h1 : spower2_parse_float (b.drop 2) with
    | none =>
      rw [h1] at h
      exact absurd h (by simp)
    | some r1 =>
      obtain ⟨v1, n1⟩ := r1
      rw [h1] at h
      rw [spower2_parse_float_extend _ rest _ h1]
      dsimp only at h ⊢
      cases a1 : advance (b.drop 2) n1 with
      | none =>
        rw [a1] at h
        exact absurd h (by simp)
      | some s1 =>
        rw [a1] at h
        rw [advance_extend _ (Char.ofNat 0 :: rest) s1 _ a1]
        simp only [Option.some_bind] at h ⊢
        cases h2 : spower2_parse_float s1 with
        | none =>
          rw [h2] at h
          exact absurd h (by simp)
        | some r2 =>
          obtain ⟨v2, n2⟩ := r2
          rw [h2] at h
          rw [spower2_parse_float_extend _ rest _ h2]
          simp only [Option.map_some'] at h ⊢
          cases a2 : advance s1 n2 with
          | none =>
            rw [a2] at h
            exact absurd h (by simp)
          | some s2 =>
            rw [a2] at h
            rw [advance_extend _ (Char.ofNat 0 :: rest) s2 _ a2]
            simp only [Option.some_bind] at h ⊢
            cases h3 : spower2_parse_float s2 with
            | none =>
              rw [h3] at h
              exact absurd h (by simp)
            | some r3 =>
              obtain ⟨v3, n3⟩ := r3
              rw [h3] at h
              rw [spower2_parse_float_extend _ rest _ h3]
              simp only [Option.map_some'] at h ⊢
              cases a3 : advance s2 n3 with
              | none =>
                rw [a3] at h
                exact absurd h (by simp)
              | some s3 =>
                rw [a3] at h
                rw [advance_extend _ (Char.ofNat 0 :: rest) s3 _ a3]
                simp only [Option.some_bind] at h ⊢
                cases h4 : spower2_parse_float s3 with
                | none =>
                  rw [h4] at h
                  exact absurd h (by simp)
                | some r4 =>
                  obtain ⟨v4, n4⟩ := r4
                  rw [h4] at h
                  rw [spower2_parse_float_extend _ rest _ h4]
                  exact h

theorem int_in_buffer_length (payload : List Char) : (int_in_buffer payload).length = 64 := by
  simp only [int_in_buffer, List.length_take, List.length_append, List.length_replicate]
  omega

theorem peek_int_in_buffer (payload : List Char) :
    peek (int_in_buffer payload) = peek payload := by
  cases payload with
  | nil => decide
  | cons c cs => rfl

theorem peek_device_string (payload : List Char) :
    peek (device_string payload) = peek (int_in_buffer payload) := by
  have h := int_in_buffer_length payload
  unfold device_string
  cases hb : int_in_buffer payload with
  | nil =>
    rw [hb] at h
    exact absurd h (by decide)
  | cons c cs => rfl

theorem device_string_of_short (payload : List Char) (h : payload.length < 64) :
    ∃ rest : List Char, device_string payload = payload ++ Char.ofNat 0 :: rest := by
  refine ⟨List.replicate (63 - payload.length) (Char.ofNat 0) ++ int_out_buffer.take 63, ?_⟩
  have hk : 64 - payload.length = (63 - payload.length) + 1 := by omega
  unfold device_string int_in_buffer
  rw [List.take_of_length_le (by
    simp only [List.length_append, List.length_replicate]
    omega), hk, List.replicate_succ]
  simp

/-- The handler on a string gives the same result when the string is
followed by its NUL and further bytes. -/
theorem callback_string_extend (P : Platform) (g : spower2_ctl) (status : Int) (len : Nat)
    (b rest : List Char) (now : Nat) (r : spower2_ctl × Nat)
    (h : spower2_int_in_callback P g status len b now = some r) :
    spower2_int_in_callback P g status len (b ++ Char.ofNat 0 :: rest) now = some r := by
  unfold spower2_int_in_callback at h ⊢
  rw [peek_append_nul]
  split
  · rename_i hs
    rw [if_pos hs] at h
    exact h
  · rename_i hs
    rw [if_neg hs] at h
    split
    · rename_i hd
      rw [if_pos hd] at h
      cases hp : parse_spower2_sample b zero_sample with
      | none =>
        rw [hp] at h
        exact absurd h (by simp)
      | some pr =>
        rw [hp] at h
        rw [parse_spower2_sample_extend b rest zero_sample pr hp]
        exact h
    · rename_i hd
      rw [if_neg hd] at h
      exact h

/-- Where the handler on the string of the device structure has a result, the
handler on the device structure has the same. -/
theorem callback_urb_of_device_string (P : Platform) (g : spower2_ctl) (status : Int)
    (len : Nat) (payload : List Char) (now : Nat) (wild : spower2_sample)
    (r : spower2_ctl × Nat)
    (h : spower2_int_in_callback P g status len (device_string payload) now = some r) :
    spower2_int_in_callback_urb P g status len payload now wild = r := by
  unfold spower2_int_in_callback at h
  unfold spower2_int_in_callback_urb
  rw [peek_device_string] at h
  split
  · rename_i hs
    rw [if_pos hs] at h
    split
    · rename_i hc
      rw [if_pos hc] at h
      exact Option.some.inj h
    · rename_i hc
      rw [if_neg hc] at h
      exact Option.some.inj h
  · rename_i hs
    rw [if_neg hs] at h
    split
    · rename_i hd
      rw [if_pos hd] at h
      cases hp : parse_spower2_sample (device_string payload) zero_sample with
      | none =>
        rw [hp] at h
        exact absurd h (by simp)
      | some pr =>
        rw [hp] at h
        exact Option.some.inj h
    · rename_i hd
      rw [if_neg hd] at h
      exact Option.some.inj h

/-- For a payload of fewer than 64 bytes the handler on the device structure
agrees with the handler on the payload as a string. -/
theorem callback_urb_of_payload (P : Platform) (g : spower2_ctl) (status : Int)
    (len : Nat) (payload : List Char) (now : Nat) (wild : spower2_sample)
    (r : spower2_ctl × Nat) (hshort : payload.length < 64)
    (h : spower2_int_in_callback P g status len payload now = some r) :
    spower2_int_in_callback_urb P g status len payload now wild = r := by
  obtain ⟨rest, hrest⟩ := device_string_of_short payload hshort
  apply callback_urb_of_device_string
  rw [hrest]
  exact callback_string_extend P g status len payload rest now r h

/-- C16: for every completion status and every payload left in
int_in_buffer, spower2_int_in_callback does nothing on a cancellation or
shutdown status (-ENOENT, -ECONNRESET, -ESHUTDOWN): no resubmission, state
unchanged; on any other non-zero status it resubmits the read exactly once
and leaves the state (history, cumulative energy, baseline) unchanged; on
status 0 it resubmits the read exactly once whatever the parser does; it
leaves the state unchanged when the payload is empty or its leading byte is
not the data tag 0x37, and otherwise inserts one sample stamped with the
current tick, adds the energy of that sample to the counter and moves the
baseline to the current tick; the readings of the sample are those of the
parser whenever its scan stays inside the two buffers of the device
structure.  Where the handler on a string has a result, this one has the
same. -/
theorem spower2_int_in_callback_urb_cases (P : Platform) (g : spower2_ctl) (status : Int)
    (len : Nat) (payload : List Char) (now : Nat) (wild : spower2_sample) :
    (status = -ENOENT ∨ status = -ECONNRESET ∨ status = -ESHUTDOWN →
      spower2_int_in_callback_urb P g status len payload now wild = (g, 0)) ∧
    (status ≠ 0 → ¬ (status = -ENOENT ∨ status = -ECONNRESET ∨ status = -ESHUTDOWN) →
      spower2_int_in_callback_urb P g status len payload now wild = (g, 1)) ∧
    (status = 0 → ¬ (0 < len ∧ (peek (int_in_buffer payload)).toNat = REQUEST_DATA) →
      spower2_int_in_callback_urb P g status len payload now wild = (g, 1)) ∧
    (status = 0 → 0 < len → (peek (int_in_buffer payload)).toNat = REQUEST_DATA →
      ∃ s : spower2_sample,
        s.timestamp = now ∧
        s.m_ujoules = sample_ujoules P s.m_watt now g.time_last_sample ∧
        (∀ r : Int × spower2_sample,
          parse_spower2_sample (device_string payload) zero_sample = some r →
            s.m_volts = r.2.m_volts ∧ s.m_ampere = r.2.m_ampere ∧ s.m_watt = r.2.m_watt ∧
            s.m_watthour = r.2.m_watthour) ∧
        spower2_int_in_callback_urb P g status len payload now wild =
          ({ g with
             cummulative_energy :=
               (g.cummulative_energy + toUInt64 s.m_ujoules) % 18446744073709551616
             time_last_sample := now
             cbuffer := insert_items_cbuffer_t g.cbuffer s }, 1)) ∧
    (status = 0 → (spower2_int_in_callback_urb P g status len payload now wild).2 = 1) ∧
    (∀ r : spower2_ctl × Nat,
      spower2_int_in_callback P g status len (device_string payload) now = some r →
        spower2_int_in_callback_urb P g status len payload now wild = r) ∧
    (payload.length < 64 → ∀ r : spower2_ctl × Nat,
      spower2_int_in_callback P g status len payload now = some r →
        spower2_int_in_callback_urb P g status len payload now wild = r) := by
  have hcancel : status = -ENOENT ∨ status = -ECONNRESET ∨ status = -ESHUTDOWN → status ≠ 0 := by
    have h1 : (-ENOENT : Int) ≠ 0 := by decide
    have h2 : (-ECONNRESET : Int) ≠ 0 := by decide
    have h3 : (-ESHUTDOWN : Int) ≠ 0 := by decide
    rintro (h | h | h) <;> rw [h] <;> assumption
  refine ⟨?_, ?_, ?_, ?_, ?_, ?_, ?_⟩
  · intro h
    unfold spower2_int_in_callback_urb
    rw [if_pos (hcancel h), if_pos h]
  · intro h0 h
    unfold spower2_int_in_callback_urb
    rw [if_pos h0, if_neg h]
  · intro h0 h
    have hz : ¬ status ≠ 0 := fun hn => hn h0
    have h2 : ¬ (len > 0 ∧ (peek (int_in_buffer payload)).toNat = REQUEST_DATA) := h
    unfold spower2_int_in_callback_urb
    rw [if_neg hz, if_neg h2]
  · intro h0 hlen htag
    have hz : ¬ status ≠ 0 := fun hn => hn h0
    have hd : len > 0 ∧ (peek (int_in_buffer payload)).toNat = REQUEST_DATA := ⟨hlen, htag⟩
    unfold spower2_int_in_callback_urb
    rw [if_neg hz, if_pos hd]
    cases hp : parse_spower2_sample (device_string payload) zero_sample with
    | none =>
      exact ⟨⟨wild.m_volts, wild.m_ampere, wild.m_watt, wild.m_watthour,
        sample_ujoules P wild.m_watt now g.time_last_sample, now⟩, rfl, rfl,
        fun r hr => absurd hr (by simp), rfl⟩
    | some pr =>
      refine ⟨⟨pr.2.m_volts, pr.2.m_ampere, pr.2.m_watt, pr.2.m_watthour,
        sample_ujoules P pr.2.m_watt now g.time_last_sample, now⟩, rfl, rfl, ?_, rfl⟩
      intro r hr
      rw [← Option.some.inj hr]
      exact ⟨rfl, rfl, rfl, rfl⟩
  · intro h0
    have hz : ¬ status ≠ 0 := fun hn => hn h0
    unfold spower2_int_in_callback_urb
    rw [if_neg hz]
    split
    · rfl
    · rfl
  · intro r hr
    exact callback_urb_of_device_string P g status len payload now wild r hr
  · intro hshort r hr
    exact callback_urb_of_payload P g status len payload now wild r hshort hr

set_option maxRecDepth 100000 in
/-- Witness of C16 in the session started at tick 1000 on a 64-bit kernel with
HZ = 250: a cancelled read, a failed read, the data telegram whose first two
fields are separated by a decimal point (its fourth scan ends at the first
byte of int_out_buffer), the data telegram with three fields, a payload
without digits (the scan leaves both buffers) and a well-formed telegram. -/
theorem spower2_int_in_callback_urb_cases_witness :
    spower2_int_in_callback_urb kernel64_hz250 (started_session kernel64_hz250 1000) (-ESHUTDOWN)
      0 [] 1100 zero_sample = (started_session kernel64_hz250 1000, 0) ∧
    spower2_int_in_callback_urb kernel64_hz250 (started_session kernel64_hz250 1000) (-71)
      0 [] 1100 zero_sample = (started_session kernel64_hz250 1000, 1) ∧
    (fun r : spower2_ctl × Nat => (r.1.cbuffer.items, r.1.cummulative_energy, r.2))
      (spower2_int_in_callback_urb kernel64_hz250 (started_session kernel64_hz250 1000) 0 64
        dotted_telegram 1100 zero_sample) = ([⟨4610, 2019, 0, -1, 0, 1100⟩], 0, 1) ∧
    (fun r : spower2_ctl × Nat => (r.1.cbuffer.items, r.1.cummulative_energy, r.2))
      (spower2_int_in_callback_urb kernel64_hz250 (started_session kernel64_hz250 1000) 0 64
        three_field_telegram 1100 zero_sample)
      = ([⟨4610, 439, 2019, -1, 807600, 1100⟩], 807600, 1) ∧
    (spower2_int_in_callback_urb kernel64_hz250 (started_session kernel64_hz250 1000) 0 64
      digitless_payload 1100 zero_sample).2 = 1 ∧
    (fun r : spower2_ctl × Nat => (r.1.cbuffer.items, r.1.cummulative_energy, r.2))
      (spower2_int_in_callback_urb kernel64_hz250 (started_session kernel64_hz250 1000) 0 64
        scenario_telegram_33 1100 zero_sample)
      = ([⟨5000, 1000, 5000, 0, 2000000, 1100⟩], 2000000, 1) :=
  ⟨(spower2_int_in_callback_urb_cases kernel64_hz250 (started_session kernel64_hz250 1000)
      (-ESHUTDOWN) 0 [] 1100 zero_sample).1 (Or.inr (Or.inr rfl)),
   (spower2_int_in_callback_urb_cases kernel64_hz250 (started_session kernel64_hz250 1000)
      (-71) 0 [] 1100 zero_sample).2.1 (by decide) (by decide),
   by decide, by decide,
   (spower2_int_in_callback_urb_cases kernel64_hz250 (started_session kernel64_hz250 1000)
      0 64 digitless_payload 1100 zero_sample).2.2.2.2.1 rfl,
   by decide⟩

/-- C17 (amended): for every session state and every outcome of the poll
submission, one timer tick (spower2_fire_timer) issues exactly one
REQUEST_DATA poll command if a device is attached and none if no device is
attached, whatever the value of started (Idle, Running or Stopping); it never
changes the started flag, the history, the cumulative energy, the baseline,
the device handle or the timer period (a failed submission is only traced),
and it always re-arms the timer to expire at the current tick plus the
configured timer period (as an unsigned long). -/
theorem spower2_fire_timer_effect (P : Platform) (g : spower2_ctl) (jiffies : Nat)
    (submit : Int) :
    (g.dev ≠ none → (spower2_fire_timer P g jiffies submit).2.1 = [REQUEST_DATA]) ∧
    (g.dev = none → (spower2_fire_timer P g jiffies submit).2.1 = []) ∧
    (spower2_fire_timer P g jiffies submit).1.started = g.started ∧
    (spower2_fire_timer P g jiffies submit).1.cbuffer = g.cbuffer ∧
    (spower2_fire_timer P g jiffies submit).1.cummulative_energy = g.cummulative_energy ∧
    (spower2_fire_timer P g jiffies submit).1.time_last_sample = g.time_last_sample ∧
    (spower2_fire_timer P g jiffies submit).1.dev = g.dev ∧
    (spower2_fire_timer P g jiffies submit).1.timer_period = g.timer_period ∧
    (spower2_fire_timer P g jiffies submit).1.timer_expires
      = (jiffies + g.timer_period) % P.ULONG_MOD ∧
    (jiffies + g.timer_period < P.ULONG_MOD →
      (spower2_fire_timer P g jiffies submit).1.timer_expires = jiffies + g.timer_period) := by
  refine ⟨?_, ?_, rfl, rfl, rfl, rfl, rfl, rfl, rfl, ?_⟩
  · intro h
    simp [spower2_fire_timer, h]
  · intro h
    simp [spower2_fire_timer, h]
  · intro h
    show (jiffies + g.timer_period) % P.ULONG_MOD = jiffies + g.timer_period
    exact Nat.mod_eq_of_lt h

/-- Witness of C17: a tick of the running session at tick 1001 whose poll
submission fails. -/
theorem spower2_fire_timer_effect_witness :
    (started_session kernel64_hz250 1000).dev ≠ none ∧
    (spower2_fire_timer kernel64_hz250 (started_session kernel64_hz250 1000) 1001 (-19)).2.1
      = [REQUEST_DATA] ∧
    (spower2_fire_timer kernel64_hz250 (started_session kernel64_hz250 1000) 1001
      (-19)).1.timer_expires = 1001 + 25 :=
  ⟨by decide,
   (spower2_fire_timer_effect kernel64_hz250 (started_session kernel64_hz250 1000) 1001
      (-19)).1 (by decide),
   (spower2_fire_timer_effect kernel64_hz250 (started_session kernel64_hz250 1000) 1001
      (-19)).2.2.2.2.2.2.2.2.2 (by decide)⟩

/-- Counterexample to C17 as stated: in the Running session whose device was
detached a tick issues no poll command, and in the Stopping state (started =
2, between the two locked sections of spower2_stop_measurements) a tick still
issues one. -/
theorem spower2_fire_timer_ignores_started :
    (spower2_disconnect session_with_sample 1).started = 1 ∧
    (spower2_fire_timer kernel64_hz250 (spower2_disconnect session_with_sample 1) 1200 0).2.1
      = [] ∧
    (stop_enter session_with_sample).map (fun g => g.started) = some 2 ∧
    (stop_enter session_with_sample).map
      (fun g => (spower2_fire_timer kernel64_hz250 g 1200 0).2.1) = some [REQUEST_DATA] := by
  decide

end SmartPower2
